import Mathlib

/-!
Formal model of the cyber-siege-server round engine
(source: src/socket/gameHandler.js).

The model is a shallow embedding of the per-session game state machine.
One Socket.IO session record (one value of the in-memory `games` map) is
modelled as an `Option Game`: `none` when the session key is absent from
the map, `some g` when present.  Each inbound socket event becomes a
constructor of `Event`; `step` is the event dispatcher, returning the new
session record together with the list of outbound notifications
(`Emission`), where each notification is tagged with its destination
(only the offending socket, or the whole room).

Conventions for translating JavaScript:
* JS numbers that the handler treats as integers (timestamps, scores,
  counters, `timeRemaining`, the per-theme `tempo` budget) are modelled as
  `Nat`/`Int`.  `Math.round((t / m) * 200)` on integer inputs is the
  rounding of the exact rational `200*t/m`, modelled by `jsRound` below
  using integer floor division (with the proof `jsRound_eq_round` linking
  it to Mathlib's `round` on `ℚ`).
* Nullable JS values are `Option`; JS truthiness of a nullable string
  (`null`, `undefined` and `""` are falsy) is `optTruthy`.
* `String(x)` applied to a nullable theme id is `jsString` (`String(null)`
  is the string "null").
* JS object literals used as score maps (`themeScores`, `globalScores`)
  are association lists updated in insertion order by `bump`; iteration
  with `Object.entries` is modelled as iteration over that list, which
  matches the JS insertion-order iteration for the non-numeric string
  keys used as user ids.
* The `setTimeout`-based idle deletion and the periodic sweep timer are
  outside the event-driven step relation and are not modelled.
-/

namespace CyberSiege

/-- JS `Math.round(p / q)` for integer `p`, `q` (exact rational rounding,
half-up), written with integer floor division so that it evaluates by
kernel reduction.  For `q = 0` we pick the value `0` (the JS code never
divides by zero here: the time budget is defaulted with `|| 30`). -/
def jsRound (p q : ℤ) : ℤ :=
  if 0 < q then (2 * p + q) / (2 * q)
  else if q < 0 then (2 * (-p) + (-q)) / (2 * (-q))
  else 0

theorem jsRound_pos (p : ℤ) (n : ℕ) (hn : 0 < n) : jsRound p n = round ((p : ℚ) / (n : ℤ)) := by
  have hn0 : ((n : ℤ) : ℚ) ≠ 0 := by exact_mod_cast hn.ne'
  rw [jsRound, if_pos (by exact_mod_cast hn), round_eq]
  have h1 : ((p : ℚ) / ((n : ℤ) : ℚ) + 1 / 2) = ((2 * p + (n : ℤ) : ℤ) : ℚ) / ((2 * n : ℕ) : ℚ) := by
    push_cast
    field_simp
    ring
  rw [h1, Rat.floor_intCast_div_natCast]
  push_cast
  ring_nf

theorem jsRound_eq_round (p q : ℤ) (hq : q ≠ 0) : jsRound p q = round ((p : ℚ) / q) := by
  rcases hq.lt_or_lt with h | h
  · have h2 : jsRound p q = jsRound (-p) (-q) := by
      rw [jsRound, jsRound, if_neg (by omega), if_pos (by omega), if_pos (by omega)]
    have h3 : ((p : ℚ) / q) = ((-p : ℤ) : ℚ) / ((-q : ℤ) : ℚ) := by
      push_cast
      rw [neg_div_neg_eq]
    obtain ⟨n, hn⟩ : ∃ n : ℕ, -q = (n : ℤ) := ⟨(-q).toNat, (Int.toNat_of_nonneg (by omega)).symm⟩
    rw [h2, h3, hn, jsRound_pos (-p) n (by omega)]
  · obtain ⟨n, hn⟩ : ∃ n : ℕ, q = (n : ℤ) := ⟨q.toNat, (Int.toNat_of_nonneg h.le).symm⟩
    subst hn
    exact jsRound_pos p n (by exact_mod_cast h)

/-- JS truthiness of a nullable string: `null`/`undefined`/`""` are falsy. -/
def optTruthy : Option String → Bool
  | none => false
  | some s => s ≠ ""

/-- JS `userId || null`: an empty string collapses to `null`. -/
def orNull : Option String → Option String
  | none => none
  | some s => if s = "" then none else some s

/-- JS `String(x)` for the nullable active theme id (`String(null)` is "null"). -/
def jsString : Option String → String
  | none => "null"
  | some s => s

/-- JS `userId && slot.userId === userId`: the caller supplied a truthy
stable id and it coincides with the id stored in the slot. -/
def uidMatches (slotUid uid : Option String) : Bool :=
  match uid with
  | some u => if u = "" then false else decide (slotUid = some u)
  | none => false

/-- The two player roles. -/
inductive Role where
  | attacker
  | defender
deriving DecidableEq, Repr

/-- The `GameStatus` enumeration from the source. -/
inductive GameStatus where
  | LOBBY
  | READY
  | ATTACKING
  | DEFENDED
  | BREACHED
  | THEME_COMPLETED
  | GAME_FINISHED
deriving DecidableEq, Repr

/-- The opaque theme metadata used by the handler: its id, display title
(`titulo`) and the per-theme time budget in seconds (`tempo`). -/
structure Theme where
  id : String
  titulo : Option String
  tempo : Option ℤ
deriving DecidableEq, Repr

/-- One player slot (`game.attacker` / `game.defender`). -/
structure PlayerSlot where
  socketId : Option String
  userId : Option String
  connected : Bool
deriving DecidableEq, Repr

/-- The in-flight round (`game.currentRound`). -/
structure RoundState where
  attackerTool : Option String
  defenderTool : Option String
  startTime : Option ℕ
  endTime : Option ℕ
deriving DecidableEq, Repr

/-- A history entry (`roundResult` object pushed into `game.history`). -/
structure RoundResult where
  round : ℕ
  themeId : Option String
  themeName : Option String
  attackerTool : Option String
  defenderTool : Option String
  isCorrect : Bool
  responseTime : ℚ
  scoreGained : ℤ
  winner : Role
  timedOut : Bool
  timestamp : ℕ
  winnerSocketId : Option String
  winnerUserId : Option String
deriving DecidableEq, Repr

/-- The per-session aggregate (one value of the `games` map).
`themeWinnerUserId`, `globalWinnerUserId` and `finalScores` are absent
(`undefined`) until first written by the handler; we model that as
`none` / `[]`. -/
structure Game where
  sessionId : String
  status : GameStatus
  activeThemeId : Option String
  activeTheme : Option Theme
  attacker : PlayerSlot
  defender : PlayerSlot
  currentRound : RoundState
  attackerScore : ℤ
  defenderScore : ℤ
  roundNumber : ℕ
  totalRounds : ℕ
  streak : ℕ
  playedThemes : List String
  themeRoundCount : ℕ
  history : List RoundResult
  themeWinnerUserId : Option String
  globalWinnerUserId : Option String
  finalScores : List (String × ℤ)
  createdAt : ℕ
  updatedAt : ℕ
deriving DecidableEq, Repr

/-- The `currentRound` object cleared to all null. -/
def emptyRound : RoundState :=
  { attackerTool := none, defenderTool := none, startTime := none, endTime := none }

/-- Source `createInitialState(sessionId)`. -/
def createInitialState (sessionId : String) (now : ℕ) : Game where
  sessionId := sessionId
  status := .LOBBY
  activeThemeId := none
  activeTheme := none
  attacker := { socketId := none, userId := none, connected := false }
  defender := { socketId := none, userId := none, connected := false }
  currentRound := emptyRound
  attackerScore := 0
  defenderScore := 0
  roundNumber := 0
  totalRounds := 0
  streak := 0
  playedThemes := []
  themeRoundCount := 0
  history := []
  themeWinnerUserId := none
  globalWinnerUserId := none
  finalScores := []
  createdAt := now
  updatedAt := now

/-- Source `calculateScore(timeRemaining, maxTime, correct, streak)`. -/
def calculateScore (timeRemaining maxTime : ℤ) (correct : Bool) (streak : ℕ) : ℤ :=
  if !correct then 0
  else
    let base : ℤ := 100
    let timeBonus : ℤ := jsRound (timeRemaining * 200) maxTime
    let streakBonus : ℤ := (streak : ℤ) * 50
    base + timeBonus + streakBonus

/-- JS `game.activeTheme?.tempo || 30` (the defense-scoring time budget:
a missing theme, missing `tempo`, or a zero `tempo` default to 30). -/
def effMaxTime (g : Game) : ℤ :=
  match g.activeTheme with
  | none => 30
  | some th =>
    match th.tempo with
    | none => 30
    | some t => if t = 0 then 30 else t

/-- JS `game.activeTheme?.tempo || 0` (the `responseTime` recorded on a
timeout). -/
def tempoOrZero (g : Game) : ℤ :=
  match g.activeTheme with
  | none => 0
  | some th =>
    match th.tempo with
    | none => 0
    | some t => if t = 0 then 0 else t

/-- Destination of an outbound notification: the offending socket only
(`socket.emit`) or the whole session room (`io.to(sessionId).emit`). -/
inductive Dest where
  | sender
  | room
deriving DecidableEq, Repr

/-- The outbound notification kinds emitted by the handler. -/
inductive Msg where
  | errorMsg (message : String)
  | gameState
  | playerJoined
  | gameStarted
  | attackExecuted
  | roundResult
  | nextRoundReady
  | gameReset
  | gameReplay
  | playerDisconnected
deriving DecidableEq, Repr

/-- One outbound notification. -/
abbrev Emission := Dest × Msg

/-- Inbound socket events.  `socketId` is the caller's connection id;
`sessionId` is the session key the socket is acting on (for `join_game`
the payload field, otherwise the socket's `currentSessionId`, which is
the empty string when the socket never joined). -/
inductive Event where
  | joinGame (socketId sessionId : String) (role : Option Role) (theme : Option Theme)
      (userId : Option String)
  | startGame (socketId sessionId : String) (theme : Theme) (role : Option Role)
      (userId : Option String)
  | executeAttack (socketId sessionId : String) (toolId : String)
  | executeDefense (socketId sessionId : String) (toolId : String) (isCorrect : Bool)
      (timeRemaining : Option ℤ)
  | timeExpired (sessionId : String)
  | chooseNextRole (socketId sessionId : String) (role : Role)
  | nextRound (sessionId : String)
  | resetGame (sessionId : String)
  | replayGame (sessionId : String)
  | requestState (sessionId : String)
  | disconnect (socketId sessionId : String)
deriving DecidableEq, Repr

/-! ### join_game -/

/-- Outcome of the role-resolution block of `join_game`. -/
inductive JoinResolution where
  | assigned (r : Role)
  | waitingHost
  | full
deriving DecidableEq, Repr

/-- The role-resolution block: an explicit requested role is taken as is
(no occupancy check); otherwise auto-assign the free slot, report
`waitingHost` for an empty room, and for a full room accept only a caller
whose `userId` matches one of the slots, reporting `full` otherwise. -/
def resolveJoinRole (g : Game) (role : Option Role) (uid : Option String) : JoinResolution :=
  match role with
  | some r => .assigned r
  | none =>
    if g.attacker.connected && !g.defender.connected then .assigned .defender
    else if !g.attacker.connected && g.defender.connected then .assigned .attacker
    else if !g.attacker.connected && !g.defender.connected then .waitingHost
    else if uidMatches g.attacker.userId uid then .assigned .attacker
    else if uidMatches g.defender.userId uid then .assigned .defender
    else .full

/-- Overwrite the assigned slot with the joining socket. -/
def applyJoinAssign (g : Game) (r : Role) (socketId : String) (uid : Option String) : Game :=
  match r with
  | .attacker => { g with attacker := { socketId := some socketId, userId := orNull uid, connected := true } }
  | .defender => { g with defender := { socketId := some socketId, userId := orNull uid, connected := true } }

/-- The theme-update block of `join_game`: when a theme is supplied and
its (stringified) id differs from the current one, install it, reset
`themeRoundCount` to 1 and record the id in `playedThemes` if absent. -/
def applyJoinTheme (g : Game) (theme : Option Theme) : Game :=
  match theme with
  | none => g
  | some th =>
    if jsString g.activeThemeId ≠ th.id then
      let g1 := { g with activeTheme := some th, activeThemeId := some th.id, themeRoundCount := 1 }
      if th.id ∈ g1.playedThemes then g1
      else { g1 with playedThemes := g1.playedThemes ++ [th.id] }
    else g

/-- Clear the in-flight round unless the game is mid-attack. -/
def applyJoinRound (g : Game) : Game :=
  if g.status = .ATTACKING then g else { g with currentRound := emptyRound }

/-- READY when both slots are connected, LOBBY otherwise. -/
def applyJoinStatus (g : Game) : Game :=
  if g.attacker.connected && g.defender.connected then { g with status := .READY }
  else { g with status := .LOBBY }

/-- The successful-path state transformation of `join_game`: slot
assignment, theme update, round clearing and status recomputation. -/
def joinApplied (now : ℕ) (g : Game) (r : Role) (socketId : String) (theme : Option Theme)
    (uid : Option String) : Game :=
  { applyJoinStatus (applyJoinRound (applyJoinTheme (applyJoinAssign g r socketId uid) theme)) with
    updatedAt := now }

/-- The `join_game` handler. -/
def joinHandler (now : ℕ) (s : Option Game) (socketId sessionId : String) (role : Option Role)
    (theme : Option Theme) (uid : Option String) : Option Game × List Emission :=
  if sessionId = "" then (s, [(.sender, .errorMsg "ID da sessão é obrigatório")])
  else
    let g0 := s.getD (createInitialState sessionId now)
    match resolveJoinRole g0 role uid with
    | .waitingHost => (some g0, [(.sender, .errorMsg "A aguardar pelo anfitrião...")])
    | .full => (some g0, [(.sender, .errorMsg "Sala cheia")])
    | .assigned r =>
      (some (joinApplied now g0 r socketId theme uid), [(.room, .gameState), (.room, .playerJoined)])

/-! ### start_game -/

/-- JS `otherPlayer && (otherPlayer.socketId || otherPlayer.userId)`. -/
def slotTruthy (p : PlayerSlot) : Bool :=
  optTruthy p.socketId || optTruthy p.userId

/-- Identify the opposing player from the pre-transition snapshot: the
caller is recognised by socket id or stable user id; otherwise the slot
opposite the requested role is assumed to hold the other player. -/
def startOtherPlayer (g : Game) (myId : String) (uid : Option String) (r : Role) : PlayerSlot :=
  if g.attacker.socketId = some myId || uidMatches g.attacker.userId uid then g.defender
  else if g.defender.socketId = some myId || uidMatches g.defender.userId uid then g.attacker
  else
    match r with
    | .attacker => g.defender
    | .defender => g.attacker

/-- The role-management block of `start_game` (runs only when a role is
supplied): the caller takes the requested slot; the other slot keeps the
identified opposing player when that snapshot holds any data, and is
emptied otherwise. -/
def applyStartRoles (g : Game) (role : Option Role) (myId : String) (uid : Option String) : Game :=
  match role with
  | none => g
  | some r =>
    let other := startOtherPlayer g myId uid r
    match r with
    | .attacker =>
      { g with
        attacker := { socketId := some myId, userId := uid, connected := true },
        defender := if slotTruthy other then other
          else { socketId := none, userId := none, connected := false } }
    | .defender =>
      { g with
        defender := { socketId := some myId, userId := uid, connected := true },
        attacker := if slotTruthy other then other
          else { socketId := none, userId := none, connected := false } }

/-- The freshly created session of `start_game` when the key is absent
(the caller is placed in the requested slot; note the source stores the
caller's `userId` only in the defender branch). -/
def startFresh (now : ℕ) (sessionId socketId : String) (role : Option Role)
    (uid : Option String) : Game :=
  let base := createInitialState sessionId now
  match role with
  | some .attacker =>
    { base with attacker := { socketId := some socketId, userId := none, connected := true } }
  | some .defender =>
    { base with defender := { socketId := some socketId, userId := uid, connected := true } }
  | none => base

/-- The state transformation of `start_game` on an existing (or freshly
created) session: role management, theme installation, status
recomputation, counter reset. -/
def startApplied (now : ℕ) (g0 : Game) (socketId : String) (theme : Theme) (role : Option Role)
    (uid : Option String) : Game :=
  let g1 := applyStartRoles g0 role socketId uid
  let g2 := { g1 with activeThemeId := some theme.id, activeTheme := some theme }
  let g3 :=
    if g2.attacker.connected && g2.defender.connected then { g2 with status := .READY }
    else { g2 with status := .LOBBY }
  { g3 with roundNumber := 0, themeRoundCount := 1, currentRound := emptyRound, updatedAt := now }

/-- The `start_game` handler. -/
def startHandler (now : ℕ) (s : Option Game) (socketId sessionId : String) (theme : Theme)
    (role : Option Role) (uid : Option String) : Option Game × List Emission :=
  if sessionId = "" then (s, [(.sender, .errorMsg "Não está numa sessão")])
  else
    let g0 := s.getD (startFresh now sessionId socketId role uid)
    (some (startApplied now g0 socketId theme role uid), [(.room, .gameState), (.room, .gameStarted)])

/-! ### execute_attack -/

/-- The state transformation of a successful `execute_attack`. -/
def attackApplied (now : ℕ) (g : Game) (toolId : String) : Game :=
  { g with
    currentRound := { attackerTool := some toolId, defenderTool := none,
                      startTime := some now, endTime := none },
    status := .ATTACKING,
    roundNumber := g.roundNumber + 1,
    updatedAt := now }

/-- The `execute_attack` handler. -/
def attackHandler (now : ℕ) (s : Option Game) (socketId sessionId toolId : String) :
    Option Game × List Emission :=
  match s with
  | none => (s, [])
  | some g =>
    if sessionId = "" then (s, [])
    else if g.attacker.socketId ≠ some socketId then
      (s, [(.sender, .errorMsg "Apenas o atacante pode atacar")])
    else if g.status = .THEME_COMPLETED then
      (s, [(.sender, .errorMsg "O tema foi concluído. Aguarde a seleção do próximo tema.")])
    else
      (some (attackApplied now g toolId), [(.room, .gameState), (.room, .attackExecuted)])

/-! ### execute_defense -/

/-- The `roundResult` object built by `execute_defense` (after
`currentRound.defenderTool` and `endTime` were written). -/
def mkDefenseResult (now : ℕ) (g : Game) (toolId : String) (isCorrect : Bool) (score : ℤ) :
    RoundResult where
  round := g.roundNumber
  themeId := g.activeThemeId
  themeName := g.activeTheme.bind Theme.titulo
  attackerTool := g.currentRound.attackerTool
  defenderTool := some toolId
  isCorrect := isCorrect
  responseTime := ((now : ℚ) - ((g.currentRound.startTime.getD 0 : ℕ) : ℚ)) / 1000
  scoreGained := score
  winner := if isCorrect then .defender else .attacker
  timedOut := false
  timestamp := now
  winnerSocketId := if isCorrect then g.defender.socketId else g.attacker.socketId
  winnerUserId := if isCorrect then g.defender.userId else g.attacker.userId

/-- The state transformation of a successful `execute_defense`: the
score is computed from the client-supplied `timeRemaining` (defaulted to
0) and the effective theme budget, the round result is appended, and
scores/streak/counters are updated. -/
def defenseApplied (now : ℕ) (g : Game) (toolId : String) (isCorrect : Bool)
    (timeRemaining : Option ℤ) : Game :=
  let tr := timeRemaining.getD 0
  let score := calculateScore tr (effMaxTime g) isCorrect g.streak
  let g1 := { g with currentRound :=
    { g.currentRound with defenderTool := some toolId, endTime := some now } }
  let r := mkDefenseResult now g1 toolId isCorrect score
  { g1 with
    history := g1.history ++ [r],
    status := if isCorrect then .DEFENDED else .BREACHED,
    defenderScore := g1.defenderScore + score,
    attackerScore := g1.attackerScore + (if isCorrect then 0 else 150),
    streak := if isCorrect then g1.streak + 1 else 0,
    totalRounds := g1.totalRounds + 1,
    updatedAt := now }

/-- The `execute_defense` handler. -/
def defenseHandler (now : ℕ) (s : Option Game) (socketId sessionId toolId : String)
    (isCorrect : Bool) (timeRemaining : Option ℤ) : Option Game × List Emission :=
  match s with
  | none => (s, [])
  | some g =>
    if sessionId = "" then (s, [])
    else if g.status ≠ .ATTACKING then (s, [])
    else if g.defender.socketId ≠ some socketId then
      (s, [(.sender, .errorMsg "Apenas o defensor pode defender")])
    else
      (some (defenseApplied now g toolId isCorrect timeRemaining),
        [(.room, .gameState), (.room, .roundResult)])

/-! ### time_expired -/

/-- The `roundResult` object built by `time_expired`: the attacker wins,
`timedOut` is set, and `scoreGained` is recorded as 0 (the flat 200-point
award is applied to `attackerScore` but not stored in the entry). -/
def mkTimeoutResult (now : ℕ) (g : Game) : RoundResult where
  round := g.roundNumber
  themeId := g.activeThemeId
  themeName := g.activeTheme.bind Theme.titulo
  attackerTool := g.currentRound.attackerTool
  defenderTool := none
  isCorrect := false
  responseTime := ((tempoOrZero g : ℤ) : ℚ)
  scoreGained := 0
  winner := .attacker
  timedOut := true
  timestamp := now
  winnerSocketId := g.attacker.socketId
  winnerUserId := g.attacker.userId

/-- The state transformation of `time_expired` in ATTACKING status. -/
def timeoutApplied (now : ℕ) (g : Game) : Game :=
  let g1 := { g with currentRound := { g.currentRound with endTime := some now } }
  let r := mkTimeoutResult now g1
  { g1 with
    history := g1.history ++ [r],
    status := .BREACHED,
    attackerScore := g1.attackerScore + 200,
    streak := 0,
    totalRounds := g1.totalRounds + 1,
    updatedAt := now }

/-- The `time_expired` handler. -/
def timeExpiredHandler (now : ℕ) (s : Option Game) (sessionId : String) :
    Option Game × List Emission :=
  if sessionId = "" then (s, [])
  else
    match s with
    | none => (s, [])
    | some g =>
      if g.status ≠ .ATTACKING then (s, [])
      else
        (some (timeoutApplied now g), [(.room, .gameState), (.room, .roundResult)])

/-! ### scoring maps and next-round logic -/

/-- Insertion-order update of an association list (`obj[k] = (obj[k] || 0) + x`). -/
def bump : List (String × ℤ) → String → ℤ → List (String × ℤ)
  | [], u, x => [(u, x)]
  | (k, v) :: rest, u, x =>
    if k = u then (k, v + x) :: rest else (k, v) :: bump rest u x

/-- Accumulate `scoreGained` per truthy `winnerUserId` over the history
entries selected by `p`. -/
def accumScores (p : RoundResult → Bool) (h : List RoundResult) : List (String × ℤ) :=
  h.foldl
    (fun acc r =>
      if p r && optTruthy r.winnerUserId then bump acc (r.winnerUserId.getD "") r.scoreGained
      else acc)
    []

/-- Source `themeScores`: per-user sums over the history entries of the active theme. -/
def themeScores (g : Game) : List (String × ℤ) :=
  accumScores (fun r => decide (r.themeId = g.activeThemeId)) g.history

/-- Source `globalScores`: per-user sums over the whole history. -/
def globalScores (h : List RoundResult) : List (String × ℤ) :=
  accumScores (fun _ => true) h

/-- The `bestScore`/`bestUserId` scan (strict improvement over a running
best initialised to -1). -/
def pickBest (l : List (String × ℤ)) : Option String × ℤ :=
  l.foldl (fun best e => if best.2 < e.2 then (some e.1, e.2) else best) (none, -1)

/-- Source constant `TOTAL_THEMES` (size of the external theme catalog). -/
def TOTAL_THEMES : ℕ := 11

/-- JS `Number(game.themeRoundCount) || 1` for a natural-number counter:
only the value 0 is falsy. -/
def themeRoundCountNorm (g : Game) : ℕ :=
  if g.themeRoundCount = 0 then 1 else g.themeRoundCount

/-- Append the active theme id to `playedThemes` when it is truthy and
not already present. -/
def pushedPlayedThemes (g : Game) : List String :=
  if optTruthy g.activeThemeId ∧ g.activeThemeId.getD "" ∉ g.playedThemes then
    g.playedThemes ++ [g.activeThemeId.getD ""]
  else g.playedThemes

/-- The `bestUserId` of the theme-winner computation, with its fallback
to the last round's winner identity when no entry beat the -1 threshold. -/
def themeWinnerOf (g0 : Game) : Option String :=
  let best := (pickBest (themeScores g0)).1
  if optTruthy best then best
  else (g0.history.getLast?).bind RoundResult.winnerUserId

/-- The theme-completion branch of `handleNextRound` (3 theme rounds
reached): status THEME_COMPLETED, theme winner recorded, theme id pushed
into `playedThemes` when truthy and absent, and — when all
`TOTAL_THEMES` themes are played — status GAME_FINISHED with the global
winner and final scores. -/
def completeTheme (now : ℕ) (g0 : Game) : Game :=
  let g1 := { g0 with status := .THEME_COMPLETED, themeWinnerUserId := themeWinnerOf g0 }
  let g2 := { g1 with playedThemes := pushedPlayedThemes g1 }
  let g3 :=
    if TOTAL_THEMES ≤ g2.playedThemes.length then
      let gs := globalScores g2.history
      { g2 with status := .GAME_FINISHED, globalWinnerUserId := (pickBest gs).1,
                finalScores := gs }
    else g2
  { g3 with updatedAt := now }

/-- The new-round branch of `handleNextRound` (fewer than 3 theme rounds). -/
def advanceRound (now : ℕ) (g0 : Game) : Game :=
  { g0 with
    roundNumber := g0.roundNumber + 1,
    themeRoundCount := g0.themeRoundCount + 1,
    status := .ATTACKING,
    themeWinnerUserId := none,
    currentRound := emptyRound,
    updatedAt := now }

/-- Source `handleNextRound`: with fewer than 3 theme rounds, advance to a new
attacking round; at 3, complete the theme (and possibly the game). -/
def handleNextRound (now : ℕ) (g : Game) : Game × List Emission :=
  let g0 := { g with themeRoundCount := themeRoundCountNorm g }
  if 3 ≤ g0.themeRoundCount then
    let g4 := completeTheme now g0
    (g4, [(.room, .gameState)] ++ (if g4.status = .ATTACKING then [(.room, .nextRoundReady)] else []))
  else
    (advanceRound now g0, [(.room, .gameState), (.room, .nextRoundReady)])

/-! ### choose_next_role, next_round, reset, replay, request_state, disconnect -/

/-- The role currently bound to a socket id, looked up by slot. -/
def callerRoleOf (g : Game) (socketId : String) : Option Role :=
  if g.attacker.socketId = some socketId then some .attacker
  else if g.defender.socketId = some socketId then some .defender
  else none

/-- The slot rebuild of a successful `choose_next_role`: both slots are
rebuilt from socket ids only (dropping any stored `userId`, both marked
connected). -/
def chooseSlots (g : Game) (socketId : String) (role : Role) : Game :=
  let loserSocketId :=
    if g.attacker.socketId = some socketId then g.defender.socketId
    else g.attacker.socketId
  let attackerSid := if role = .attacker then some socketId else loserSocketId
  let defenderSid := if role = .defender then some socketId else loserSocketId
  { g with
    attacker := { socketId := attackerSid, userId := none, connected := true },
    defender := { socketId := defenderSid, userId := none, connected := true } }

/-- The `choose_next_role` handler.  On success both slots are rebuilt
from socket ids only and `handleNextRound` runs. -/
def chooseNextRoleHandler (now : ℕ) (s : Option Game) (socketId sessionId : String) (role : Role) :
    Option Game × List Emission :=
  if sessionId = "" then (s, [])
  else
    match s with
    | none => (s, [])
    | some g =>
      match g.history.getLast? with
      | none => (s, [])
      | some lastRound =>
        if callerRoleOf g socketId ≠ some lastRound.winner then
          (s, [(.sender, .errorMsg "Apenas o vencedor da ronda anterior pode escolher o papel")])
        else
          let gr := handleNextRound now (chooseSlots g socketId role)
          (some gr.1, gr.2)

/-- The `next_round` handler (no guard: it may run in any status). -/
def nextRoundHandler (now : ℕ) (s : Option Game) (sessionId : String) :
    Option Game × List Emission :=
  if sessionId = "" then (s, [])
  else
    match s with
    | none => (s, [])
    | some g =>
      let gr := handleNextRound now g
      (some gr.1, gr.2)

/-- The `reset_game` handler: a fresh initial state is installed
unconditionally. -/
def resetHandler (now : ℕ) (s : Option Game) (sessionId : String) :
    Option Game × List Emission :=
  if sessionId = "" then (s, [])
  else (some (createInitialState sessionId now), [(.room, .gameState), (.room, .gameReset)])

/-- The state transformation of `replay_game`: round state cleared,
scores and history kept. -/
def replayApplied (now : ℕ) (g : Game) : Game :=
  { g with status := .READY, currentRound := emptyRound,
           roundNumber := 0, streak := 0, updatedAt := now }

/-- The `replay_game` handler: round state cleared, scores and history kept. -/
def replayHandler (now : ℕ) (s : Option Game) (sessionId : String) :
    Option Game × List Emission :=
  if sessionId = "" then (s, [])
  else
    match s with
    | none => (s, [])
    | some g =>
      (some (replayApplied now g), [(.room, .gameState), (.room, .gameReplay)])

/-- The `request_state` handler: read-only. -/
def requestStateHandler (s : Option Game) (sessionId : String) :
    Option Game × List Emission :=
  if sessionId = "" then (s, [])
  else
    match s with
    | none => (s, [])
    | some _ => (s, [(.sender, .gameState)])

/-- The state transformation of `disconnect`: mark the matching slot(s)
disconnected. -/
def disconnectApplied (now : ℕ) (g : Game) (socketId : String) : Game :=
  let g1 :=
    if g.attacker.socketId = some socketId then
      { g with attacker := { g.attacker with connected := false } }
    else g
  let g2 :=
    if g1.defender.socketId = some socketId then
      { g1 with defender := { g1.defender with connected := false } }
    else g1
  { g2 with updatedAt := now }

/-- The `disconnect` handler: mark the matching slot(s) disconnected.
(The 5-minute deferred deletion is a timer, not part of the step.) -/
def disconnectHandler (now : ℕ) (s : Option Game) (socketId sessionId : String) :
    Option Game × List Emission :=
  if sessionId = "" then (s, [])
  else
    match s with
    | none => (s, [])
    | some g =>
      (some (disconnectApplied now g socketId), [(.room, .playerDisconnected), (.room, .gameState)])

/-- The event dispatcher: one inbound event applied to one session record. -/
def step (now : ℕ) (s : Option Game) : Event → Option Game × List Emission
  | .joinGame socketId sessionId role theme uid => joinHandler now s socketId sessionId role theme uid
  | .startGame socketId sessionId theme role uid => startHandler now s socketId sessionId theme role uid
  | .executeAttack socketId sessionId toolId => attackHandler now s socketId sessionId toolId
  | .executeDefense socketId sessionId toolId isCorrect tr =>
      defenseHandler now s socketId sessionId toolId isCorrect tr
  | .timeExpired sessionId => timeExpiredHandler now s sessionId
  | .chooseNextRole socketId sessionId role => chooseNextRoleHandler now s socketId sessionId role
  | .nextRound sessionId => nextRoundHandler now s sessionId
  | .resetGame sessionId => resetHandler now s sessionId
  | .replayGame sessionId => replayHandler now s sessionId
  | .requestState sessionId => requestStateHandler s sessionId
  | .disconnect socketId sessionId => disconnectHandler now s socketId sessionId

/-- Run a timed event trace from an absent session. -/
def run (l : List (ℕ × Event)) : Option Game :=
  l.foldl (fun s pe => (step pe.1 s pe.2).1) none

/-- A session record is reachable when some event trace produces it. -/
def Reachable (s : Option Game) : Prop :=
  ∃ l : List (ℕ × Event), run l = s

/-- Induction principle over reachable session records. -/
theorem reachable_elim {P : Option Game → Prop} (h0 : P none)
    (hs : ∀ (now : ℕ) (s : Option Game) (e : Event), P s → P (step now s e).1) :
    ∀ s, Reachable s → P s := by
  rintro s ⟨l, rfl⟩
  suffices h : ∀ (l : List (ℕ × Event)) (s0 : Option Game), P s0 →
      P (l.foldl (fun s pe => (step pe.1 s pe.2).1) s0) by
    exact h l none h0
  intro l
  induction l with
  | nil => intro s0 hP; simpa using hP
  | cons pe rest ih => intro s0 hP; exact ih _ (hs pe.1 s0 pe.2 hP)

/-! ## Handler state characterizations

Each lemma describes the possible next states of one handler: either the
record is returned unchanged, or it is one of the named applied
transformations. -/

theorem joinHandler_state (now : ℕ) (s : Option Game) (sockId sessId : String)
    (role : Option Role) (th : Option Theme) (uid : Option String) :
    (joinHandler now s sockId sessId role th uid).1 = s ∨
    (joinHandler now s sockId sessId role th uid).1 =
      some (s.getD (createInitialState sessId now)) ∨
    ∃ r, (joinHandler now s sockId sessId role th uid).1 =
      some (joinApplied now (s.getD (createInitialState sessId now)) r sockId th uid) := by
  unfold joinHandler
  split
  · exact Or.inl rfl
  · cases h : resolveJoinRole (s.getD (createInitialState sessId now)) role uid with
    | assigned r => exact Or.inr (Or.inr ⟨r, by simp [h]⟩)
    | waitingHost => exact Or.inr (Or.inl (by simp [h]))
    | full => exact Or.inr (Or.inl (by simp [h]))

theorem startHandler_state (now : ℕ) (s : Option Game) (sockId sessId : String) (th : Theme)
    (role : Option Role) (uid : Option String) (hs : sessId ≠ "") :
    (startHandler now s sockId sessId th role uid).1 =
      some (startApplied now (s.getD (startFresh now sessId sockId role uid)) sockId th role uid) := by
  unfold startHandler
  rw [if_neg hs]

theorem startHandler_empty (now : ℕ) (s : Option Game) (sockId : String) (th : Theme)
    (role : Option Role) (uid : Option String) :
    startHandler now s sockId "" th role uid = (s, [(.sender, .errorMsg "Não está numa sessão")]) := by
  unfold startHandler
  rw [if_pos rfl]

theorem attackHandler_state (now : ℕ) (s : Option Game) (sockId sessId tool : String) :
    (attackHandler now s sockId sessId tool).1 = s ∨
    ∃ g, s = some g ∧ (attackHandler now s sockId sessId tool).1 = some (attackApplied now g tool) := by
  cases s with
  | none => exact Or.inl rfl
  | some g =>
    unfold attackHandler
    dsimp only
    split_ifs <;> first
      | exact Or.inl rfl
      | exact Or.inr ⟨g, rfl, rfl⟩

theorem defenseHandler_state (now : ℕ) (s : Option Game) (sockId sessId tool : String)
    (isCorrect : Bool) (tr : Option ℤ) :
    (defenseHandler now s sockId sessId tool isCorrect tr).1 = s ∨
    ∃ g, s = some g ∧
      (defenseHandler now s sockId sessId tool isCorrect tr).1 =
        some (defenseApplied now g tool isCorrect tr) := by
  cases s with
  | none => exact Or.inl rfl
  | some g =>
    unfold defenseHandler
    dsimp only
    split_ifs <;> first
      | exact Or.inl rfl
      | exact Or.inr ⟨g, rfl, rfl⟩

theorem timeExpiredHandler_state (now : ℕ) (s : Option Game) (sessId : String) :
    (timeExpiredHandler now s sessId).1 = s ∨
    ∃ g, s = some g ∧ g.status = .ATTACKING ∧
      (timeExpiredHandler now s sessId).1 = some (timeoutApplied now g) := by
  unfold timeExpiredHandler
  split
  · exact Or.inl rfl
  · cases s with
    | none => exact Or.inl rfl
    | some g =>
      simp only
      split
      · exact Or.inl rfl
      · next h => exact Or.inr ⟨g, rfl, by simpa using h, rfl⟩

theorem chooseNextRoleHandler_state (now : ℕ) (s : Option Game) (sockId sessId : String)
    (role : Role) :
    (chooseNextRoleHandler now s sockId sessId role).1 = s ∨
    ∃ g, s = some g ∧
      (chooseNextRoleHandler now s sockId sessId role).1 =
        some (handleNextRound now (chooseSlots g sockId role)).1 := by
  unfold chooseNextRoleHandler
  split
  · exact Or.inl rfl
  · cases s with
    | none => exact Or.inl rfl
    | some g =>
      simp only
      split
      · exact Or.inl rfl
      · split
        · exact Or.inl rfl
        · exact Or.inr ⟨g, rfl, rfl⟩

theorem nextRoundHandler_state (now : ℕ) (s : Option Game) (sessId : String) :
    (nextRoundHandler now s sessId).1 = s ∨
    ∃ g, s = some g ∧ (nextRoundHandler now s sessId).1 = some (handleNextRound now g).1 := by
  unfold nextRoundHandler
  split
  · exact Or.inl rfl
  · cases s with
    | none => exact Or.inl rfl
    | some g => exact Or.inr ⟨g, rfl, rfl⟩

theorem resetHandler_state (now : ℕ) (s : Option Game) (sessId : String) :
    (resetHandler now s sessId).1 = s ∨
    (resetHandler now s sessId).1 = some (createInitialState sessId now) := by
  unfold resetHandler
  split
  · exact Or.inl rfl
  · exact Or.inr rfl

theorem replayHandler_state (now : ℕ) (s : Option Game) (sessId : String) :
    (replayHandler now s sessId).1 = s ∨
    ∃ g, s = some g ∧ (replayHandler now s sessId).1 = some (replayApplied now g) := by
  unfold replayHandler
  split
  · exact Or.inl rfl
  · cases s with
    | none => exact Or.inl rfl
    | some g => exact Or.inr ⟨g, rfl, rfl⟩

theorem requestStateHandler_state (s : Option Game) (sessId : String) :
    (requestStateHandler s sessId).1 = s := by
  unfold requestStateHandler
  split
  · rfl
  · cases s <;> rfl

theorem disconnectHandler_state (now : ℕ) (s : Option Game) (sockId sessId : String) :
    (disconnectHandler now s sockId sessId).1 = s ∨
    ∃ g, s = some g ∧
      (disconnectHandler now s sockId sessId).1 = some (disconnectApplied now g sockId) := by
  unfold disconnectHandler
  split
  · exact Or.inl rfl
  · cases s with
    | none => exact Or.inl rfl
    | some g => exact Or.inr ⟨g, rfl, rfl⟩

theorem handleNextRound_state (now : ℕ) (g : Game) :
    (handleNextRound now g).1 = completeTheme now { g with themeRoundCount := themeRoundCountNorm g } ∨
    (handleNextRound now g).1 = advanceRound now { g with themeRoundCount := themeRoundCountNorm g } := by
  unfold handleNextRound
  dsimp only
  split
  · exact Or.inl rfl
  · exact Or.inr rfl

/-! ## Projection lemmas for the applied transformations -/

theorem applyJoinAssign_proj (g : Game) (r : Role) (sid : String) (uid : Option String) :
    (applyJoinAssign g r sid uid).themeRoundCount = g.themeRoundCount ∧
    (applyJoinAssign g r sid uid).activeThemeId = g.activeThemeId ∧
    (applyJoinAssign g r sid uid).playedThemes = g.playedThemes ∧
    (applyJoinAssign g r sid uid).attackerScore = g.attackerScore ∧
    (applyJoinAssign g r sid uid).defenderScore = g.defenderScore ∧
    (applyJoinAssign g r sid uid).history = g.history := by
  cases r <;> exact ⟨rfl, rfl, rfl, rfl, rfl, rfl⟩

theorem applyJoinTheme_proj (g : Game) (th : Option Theme) :
    (applyJoinTheme g th).attacker = g.attacker ∧
    (applyJoinTheme g th).defender = g.defender ∧
    (applyJoinTheme g th).attackerScore = g.attackerScore ∧
    (applyJoinTheme g th).defenderScore = g.defenderScore ∧
    (applyJoinTheme g th).history = g.history ∧
    (applyJoinTheme g th).status = g.status := by
  cases th with
  | none => exact ⟨rfl, rfl, rfl, rfl, rfl, rfl⟩
  | some t =>
    unfold applyJoinTheme
    dsimp only
    split_ifs <;> exact ⟨rfl, rfl, rfl, rfl, rfl, rfl⟩

theorem applyJoinTheme_trc_cases (g : Game) (th : Option Theme) :
    (applyJoinTheme g th).themeRoundCount = g.themeRoundCount ∨
    ((applyJoinTheme g th).themeRoundCount = 1 ∧
      ∃ t, th = some t ∧ jsString g.activeThemeId ≠ t.id) := by
  cases th with
  | none => exact Or.inl rfl
  | some t =>
    unfold applyJoinTheme
    dsimp only
    split_ifs with h1 h2
    · exact Or.inr ⟨rfl, t, rfl, h1⟩
    · exact Or.inr ⟨rfl, t, rfl, h1⟩
    · exact Or.inl rfl

theorem applyJoinTheme_played_cases (g : Game) (th : Option Theme) :
    (applyJoinTheme g th).playedThemes = g.playedThemes ∨
    (∃ t, th = some t ∧ t.id ∉ g.playedThemes ∧
      (applyJoinTheme g th).playedThemes = g.playedThemes ++ [t.id]) := by
  cases th with
  | none => exact Or.inl rfl
  | some t =>
    unfold applyJoinTheme
    dsimp only
    split_ifs with h1 h2
    · exact Or.inl rfl
    · exact Or.inr ⟨t, rfl, h2, rfl⟩
    · exact Or.inl rfl

theorem applyJoinRound_proj (g : Game) :
    (applyJoinRound g).themeRoundCount = g.themeRoundCount ∧
    (applyJoinRound g).playedThemes = g.playedThemes ∧
    (applyJoinRound g).attackerScore = g.attackerScore ∧
    (applyJoinRound g).defenderScore = g.defenderScore ∧
    (applyJoinRound g).history = g.history ∧
    (applyJoinRound g).attacker = g.attacker ∧
    (applyJoinRound g).defender = g.defender := by
  unfold applyJoinRound
  split_ifs <;> exact ⟨rfl, rfl, rfl, rfl, rfl, rfl, rfl⟩

theorem applyJoinStatus_proj (g : Game) :
    (applyJoinStatus g).themeRoundCount = g.themeRoundCount ∧
    (applyJoinStatus g).playedThemes = g.playedThemes ∧
    (applyJoinStatus g).attackerScore = g.attackerScore ∧
    (applyJoinStatus g).defenderScore = g.defenderScore ∧
    (applyJoinStatus g).history = g.history ∧
    (applyJoinStatus g).attacker = g.attacker ∧
    (applyJoinStatus g).defender = g.defender := by
  unfold applyJoinStatus
  split_ifs <;> exact ⟨rfl, rfl, rfl, rfl, rfl, rfl, rfl⟩

theorem joinApplied_trc_cases (now : ℕ) (g : Game) (r : Role) (sid : String) (th : Option Theme)
    (uid : Option String) :
    (joinApplied now g r sid th uid).themeRoundCount = g.themeRoundCount ∨
    ((joinApplied now g r sid th uid).themeRoundCount = 1 ∧
      ∃ t, th = some t ∧ jsString g.activeThemeId ≠ t.id) := by
  unfold joinApplied
  have ha := applyJoinAssign_proj g r sid uid
  have ht := applyJoinTheme_trc_cases (applyJoinAssign g r sid uid) th
  have hr := applyJoinRound_proj (applyJoinTheme (applyJoinAssign g r sid uid) th)
  have hs := applyJoinStatus_proj (applyJoinRound (applyJoinTheme (applyJoinAssign g r sid uid) th))
  rcases ht with ht | ⟨ht, t, htt, hne⟩
  · exact Or.inl (by simp only [hs.1, hr.1, ht, ha.1])
  · exact Or.inr ⟨by simp only [hs.1, hr.1, ht], t, htt, by rwa [ha.2.1] at hne⟩

theorem joinApplied_played_cases (now : ℕ) (g : Game) (r : Role) (sid : String)
    (th : Option Theme) (uid : Option String) :
    (joinApplied now g r sid th uid).playedThemes = g.playedThemes ∨
    (∃ t, th = some t ∧ t.id ∉ g.playedThemes ∧
      (joinApplied now g r sid th uid).playedThemes = g.playedThemes ++ [t.id]) := by
  unfold joinApplied
  have ha := applyJoinAssign_proj g r sid uid
  have ht := applyJoinTheme_played_cases (applyJoinAssign g r sid uid) th
  have hr := applyJoinRound_proj (applyJoinTheme (applyJoinAssign g r sid uid) th)
  have hs := applyJoinStatus_proj (applyJoinRound (applyJoinTheme (applyJoinAssign g r sid uid) th))
  rcases ht with ht | ⟨t, htt, hmem, hpt⟩
  · exact Or.inl (by simp only [hs.2.1, hr.2.1, ht, ha.2.2.1])
  · refine Or.inr ⟨t, htt, by rwa [ha.2.2.1] at hmem, ?_⟩
    simp only [hs.2.1, hr.2.1, hpt, ha.2.2.1]

theorem joinApplied_scores (now : ℕ) (g : Game) (r : Role) (sid : String) (th : Option Theme)
    (uid : Option String) :
    (joinApplied now g r sid th uid).attackerScore = g.attackerScore ∧
    (joinApplied now g r sid th uid).defenderScore = g.defenderScore ∧
    (joinApplied now g r sid th uid).history = g.history := by
  unfold joinApplied
  have ha := applyJoinAssign_proj g r sid uid
  have ht := applyJoinTheme_proj (applyJoinAssign g r sid uid) th
  have hr := applyJoinRound_proj (applyJoinTheme (applyJoinAssign g r sid uid) th)
  have hs := applyJoinStatus_proj (applyJoinRound (applyJoinTheme (applyJoinAssign g r sid uid) th))
  refine ⟨?_, ?_, ?_⟩
  · simp only [hs.2.2.1, hr.2.2.1, ht.2.2.1, ha.2.2.2.1]
  · simp only [hs.2.2.2.1, hr.2.2.2.1, ht.2.2.2.1, ha.2.2.2.2.1]
  · simp only [hs.2.2.2.2.1, hr.2.2.2.2.1, ht.2.2.2.2.1, ha.2.2.2.2.2]

theorem startApplied_trc (now : ℕ) (g0 : Game) (sid : String) (th : Theme) (role : Option Role)
    (uid : Option String) : (startApplied now g0 sid th role uid).themeRoundCount = 1 := rfl

theorem completeTheme_proj (now : ℕ) (g0 : Game) :
    (completeTheme now g0).themeRoundCount = g0.themeRoundCount ∧
    (completeTheme now g0).attackerScore = g0.attackerScore ∧
    (completeTheme now g0).defenderScore = g0.defenderScore ∧
    (completeTheme now g0).history = g0.history ∧
    (completeTheme now g0).attacker = g0.attacker ∧
    (completeTheme now g0).defender = g0.defender ∧
    (completeTheme now g0).playedThemes =
      pushedPlayedThemes { g0 with status := GameStatus.THEME_COMPLETED,
                                   themeWinnerUserId := themeWinnerOf g0 } := by
  unfold completeTheme
  dsimp only
  split_ifs <;> exact ⟨rfl, rfl, rfl, rfl, rfl, rfl, rfl⟩

theorem advanceRound_proj (now : ℕ) (g0 : Game) :
    (advanceRound now g0).themeRoundCount = g0.themeRoundCount + 1 ∧
    (advanceRound now g0).attackerScore = g0.attackerScore ∧
    (advanceRound now g0).defenderScore = g0.defenderScore ∧
    (advanceRound now g0).history = g0.history ∧
    (advanceRound now g0).attacker = g0.attacker ∧
    (advanceRound now g0).defender = g0.defender ∧
    (advanceRound now g0).playedThemes = g0.playedThemes :=
  ⟨rfl, rfl, rfl, rfl, rfl, rfl, rfl⟩

/-! ## themeRoundCount bound (C2) -/

theorem getD_trc_le (s : Option Game) (sessId : String) (now : ℕ)
    (h : ∀ g, s = some g → g.themeRoundCount ≤ 3) :
    (s.getD (createInitialState sessId now)).themeRoundCount ≤ 3 := by
  cases s with
  | none => simp [createInitialState]
  | some g => simpa using h g rfl

theorem handleNextRound_trc_le (now : ℕ) (g : Game) (h : g.themeRoundCount ≤ 3) :
    ((handleNextRound now g).1).themeRoundCount ≤ 3 := by
  have hnorm : themeRoundCountNorm g ≤ 3 := by
    unfold themeRoundCountNorm
    split <;> omega
  unfold handleNextRound
  dsimp only
  split
  · rw [(completeTheme_proj now _).1]
    exact hnorm
  · next h3 =>
    rw [(advanceRound_proj now _).1]
    have h3' : ¬ 3 ≤ themeRoundCountNorm g := h3
    show themeRoundCountNorm g + 1 ≤ 3
    omega

theorem step_trc_le (now : ℕ) (s : Option Game) (e : Event)
    (h : ∀ g, s = some g → g.themeRoundCount ≤ 3) :
    ∀ g', (step now s e).1 = some g' → g'.themeRoundCount ≤ 3 := by
  intro g' hg'
  cases e with
  | joinGame sockId sessId role th uid =>
    simp only [step] at hg'
    rcases joinHandler_state now s sockId sessId role th uid with h1 | h1 | ⟨r, h1⟩ <;>
      rw [h1] at hg'
    · exact h g' hg'
    · rw [Option.some.injEq] at hg'
      subst hg'
      exact getD_trc_le s sessId now h
    · rw [Option.some.injEq] at hg'
      subst hg'
      rcases joinApplied_trc_cases now _ r sockId th uid with h2 | ⟨h2, _⟩
      · rw [h2]; exact getD_trc_le s sessId now h
      · omega
  | startGame sockId sessId th role uid =>
    simp only [step] at hg'
    by_cases hs : sessId = ""
    · subst hs
      rw [startHandler_empty] at hg'
      exact h g' hg'
    · rw [startHandler_state now s sockId sessId th role uid hs, Option.some.injEq] at hg'
      subst hg'
      rw [startApplied_trc]
      omega
  | executeAttack sockId sessId tool =>
    simp only [step] at hg'
    rcases attackHandler_state now s sockId sessId tool with h1 | ⟨g, hsg, h1⟩ <;> rw [h1] at hg'
    · exact h g' hg'
    · rw [Option.some.injEq] at hg'
      subst hg'
      have := h g hsg
      simpa [attackApplied] using this
  | executeDefense sockId sessId tool c tr =>
    simp only [step] at hg'
    rcases defenseHandler_state now s sockId sessId tool c tr with h1 | ⟨g, hsg, h1⟩ <;>
      rw [h1] at hg'
    · exact h g' hg'
    · rw [Option.some.injEq] at hg'
      subst hg'
      have := h g hsg
      simpa [defenseApplied] using this
  | timeExpired sessId =>
    simp only [step] at hg'
    rcases timeExpiredHandler_state now s sessId with h1 | ⟨g, hsg, _, h1⟩ <;> rw [h1] at hg'
    · exact h g' hg'
    · rw [Option.some.injEq] at hg'
      subst hg'
      have := h g hsg
      simpa [timeoutApplied] using this
  | chooseNextRole sockId sessId role =>
    simp only [step] at hg'
    rcases chooseNextRoleHandler_state now s sockId sessId role with h1 | ⟨g, hsg, h1⟩ <;>
      rw [h1] at hg'
    · exact h g' hg'
    · rw [Option.some.injEq] at hg'
      subst hg'
      refine handleNextRound_trc_le now _ ?_
      have := h g hsg
      simpa [chooseSlots] using this
  | nextRound sessId =>
    simp only [step] at hg'
    rcases nextRoundHandler_state now s sessId with h1 | ⟨g, hsg, h1⟩ <;> rw [h1] at hg'
    · exact h g' hg'
    · rw [Option.some.injEq] at hg'
      subst hg'
      exact handleNextRound_trc_le now g (h g hsg)
  | resetGame sessId =>
    simp only [step] at hg'
    rcases resetHandler_state now s sessId with h1 | h1 <;> rw [h1] at hg'
    · exact h g' hg'
    · rw [Option.some.injEq] at hg'
      subst hg'
      simp [createInitialState]
  | replayGame sessId =>
    simp only [step] at hg'
    rcases replayHandler_state now s sessId with h1 | ⟨g, hsg, h1⟩ <;> rw [h1] at hg'
    · exact h g' hg'
    · rw [Option.some.injEq] at hg'
      subst hg'
      have := h g hsg
      simpa [replayApplied] using this
  | requestState sessId =>
    simp only [step] at hg'
    rw [requestStateHandler_state s sessId] at hg'
    exact h g' hg'
  | disconnect sockId sessId =>
    simp only [step] at hg'
    rcases disconnectHandler_state now s sockId sessId with h1 | ⟨g, hsg, h1⟩ <;> rw [h1] at hg'
    · exact h g' hg'
    · rw [Option.some.injEq] at hg'
      subst hg'
      have := h g hsg
      unfold disconnectApplied
      dsimp only
      split_ifs <;> simpa using this

/-! ## Claim C1: the scoring function -/

/-- C1: `calculateScore` returns 0 whenever `correct` is false, and
otherwise `100 + round(200 * timeRemaining / themeTimeBudget) + 50 *
streak` (for any nonzero budget, with `round` the exact half-up rounding
of the rational quotient); in particular `score(10, 30, true, 0) = 167`. -/
theorem C1_calculateScore :
    (∀ (t m : ℤ) (st : ℕ), calculateScore t m false st = 0)
  ∧ (∀ (t m : ℤ) (st : ℕ), m ≠ 0 →
      calculateScore t m true st = 100 + round (200 * (t : ℚ) / (m : ℚ)) + 50 * st)
  ∧ calculateScore 10 30 true 0 = 167 := by
  refine ⟨fun t m st => rfl, fun t m st hm => ?_, by decide⟩
  show 100 + jsRound (t * 200) m + (st : ℤ) * 50 = 100 + round (200 * (t : ℚ) / (m : ℚ)) + 50 * st
  rw [jsRound_eq_round (t * 200) m hm]
  have : ((t * 200 : ℤ) : ℚ) / (m : ℚ) = 200 * (t : ℚ) / (m : ℚ) := by
    push_cast
    ring
  rw [this]
  ring

/-- C1 (witness): the nonzero-budget hypothesis discharged at
`t = 10`, `m = 30`, `streak = 2`. -/
theorem C1_calculateScore_witness :
    (30 : ℤ) ≠ 0 ∧
    calculateScore 10 30 true 2 = 100 + round (200 * (10 : ℚ) / (30 : ℚ)) + 50 * 2 :=
  ⟨by decide, C1_calculateScore.2.1 10 30 2 (by decide)⟩

/-! ## Claim C2: themeRoundCount -/

/-- C2 (amended): in every reachable session state `themeRoundCount ≤ 3`
(the lower bound 1 fails: the counter is 0 before any theme is set and
after a reset); `start_game` sets it to 1 unconditionally, even when
`activeThemeId` is unchanged; a `join_game` changes it only by setting
it to 1, and only when the event carries a theme whose id differs from
the stringified current `activeThemeId`. -/
theorem C2_themeRoundCount_amended :
    (∀ s, Reachable s → ∀ g, s = some g → g.themeRoundCount ≤ 3)
  ∧ (∀ (now : ℕ) (g : Game) (sockId sessId : String) (th : Theme) (role : Option Role)
        (uid : Option String) (g' : Game), sessId ≠ "" →
        (step now (some g) (.startGame sockId sessId th role uid)).1 = some g' →
        g'.themeRoundCount = 1)
  ∧ (∀ (now : ℕ) (g : Game) (sockId sessId : String) (role : Option Role) (th : Option Theme)
        (uid : Option String) (g' : Game),
        (step now (some g) (.joinGame sockId sessId role th uid)).1 = some g' →
        g'.themeRoundCount = g.themeRoundCount ∨
          (g'.themeRoundCount = 1 ∧ ∃ t, th = some t ∧ jsString g.activeThemeId ≠ t.id)) := by
  refine ⟨?_, ?_, ?_⟩
  · exact reachable_elim (fun g hg => by cases hg) step_trc_le
  · intro now g sockId sessId th role uid g' hs hstep
    simp only [step] at hstep
    rw [startHandler_state now (some g) sockId sessId th role uid hs, Option.some.injEq] at hstep
    subst hstep
    exact startApplied_trc now g sockId th role uid
  · intro now g sockId sessId role th uid g' hstep
    simp only [step] at hstep
    rcases joinHandler_state now (some g) sockId sessId role th uid with h1 | h1 | ⟨r, h1⟩ <;>
      rw [h1] at hstep <;> rw [Option.some.injEq] at hstep <;> subst hstep
    · exact Or.inl rfl
    · exact Or.inl rfl
    · exact joinApplied_trc_cases now g r sockId th uid

/-- The single-event trace behind the C2 counterexample: one attacker
joins a fresh session without a theme. -/
def C2trace : List (ℕ × Event) :=
  [(0, .joinGame "sa" "s1" (some .attacker) none none)]

/-- C2 (counterexample): after a reachable join the session state has
`themeRoundCount = 0`, outside the interval [1,3] claimed to hold in
every reachable state. -/
theorem C2_counterexample :
    Reachable (run C2trace) ∧ (run C2trace).map Game.themeRoundCount = some 0 :=
  ⟨⟨C2trace, rfl⟩, by decide⟩

/-- The session record produced by `C2trace`. -/
def C2g : Game :=
  { createInitialState "s1" 0 with
    attacker := { socketId := some "sa", userId := none, connected := true } }

/-- A fixed theme used by concrete witnesses. -/
def Tw : Theme := { id := "tw", titulo := none, tempo := some 30 }

/-- The result of `start_game` with theme `Tw` on `C2g`. -/
def C2gStart : Game :=
  { C2g with activeThemeId := some "tw", activeTheme := some Tw, status := .LOBBY,
             themeRoundCount := 1 }

/-- The result of the defender joining `C2g` without a theme. -/
def C2gJoin : Game :=
  { C2g with defender := { socketId := some "sb", userId := none, connected := true },
             status := .READY }

/-- C2 (witness): the three parts of the amended theorem instantiated at
concrete reachable inputs. -/
theorem C2_witness :
    C2g.themeRoundCount ≤ 3
  ∧ C2gStart.themeRoundCount = 1
  ∧ (C2gJoin.themeRoundCount = C2g.themeRoundCount ∨
      (C2gJoin.themeRoundCount = 1 ∧
        ∃ t, (none : Option Theme) = some t ∧ jsString C2g.activeThemeId ≠ t.id)) :=
  ⟨C2_themeRoundCount_amended.1 (run C2trace) ⟨C2trace, rfl⟩ C2g (by decide),
   C2_themeRoundCount_amended.2.1 0 C2g "sa" "s1" Tw none none C2gStart (by decide) (by decide),
   C2_themeRoundCount_amended.2.2 0 C2g "sb" "s1" (some .defender) none none C2gJoin (by decide)⟩

/-! ## Claim C3: playedThemes -/

theorem nodup_append_single {α : Type} [DecidableEq α] {l : List α} {a : α}
    (h : l.Nodup) (ha : a ∉ l) : (l ++ [a]).Nodup := by
  rw [List.nodup_append]
  exact ⟨h, List.nodup_singleton a, fun b hb hba => ha ((List.mem_singleton.mp hba) ▸ hb)⟩

theorem pushedPlayedThemes_nodup (g : Game) (h : g.playedThemes.Nodup) :
    (pushedPlayedThemes g).Nodup := by
  unfold pushedPlayedThemes
  split_ifs with hc
  · exact nodup_append_single h hc.2
  · exact h

theorem startApplied_played (now : ℕ) (g0 : Game) (sid : String) (th : Theme)
    (role : Option Role) (uid : Option String) :
    (startApplied now g0 sid th role uid).playedThemes = g0.playedThemes ∧
    (startApplied now g0 sid th role uid).attackerScore = g0.attackerScore ∧
    (startApplied now g0 sid th role uid).defenderScore = g0.defenderScore ∧
    (startApplied now g0 sid th role uid).history = g0.history := by
  unfold startApplied applyStartRoles
  match role with
  | none =>
    dsimp only
    split_ifs <;> exact ⟨rfl, rfl, rfl, rfl⟩
  | some .attacker =>
    dsimp only
    split_ifs <;> exact ⟨rfl, rfl, rfl, rfl⟩
  | some .defender =>
    dsimp only
    split_ifs <;> exact ⟨rfl, rfl, rfl, rfl⟩

theorem startFresh_proj (now : ℕ) (sessId sockId : String) (role : Option Role)
    (uid : Option String) :
    (startFresh now sessId sockId role uid).playedThemes = [] ∧
    (startFresh now sessId sockId role uid).attackerScore = 0 ∧
    (startFresh now sessId sockId role uid).defenderScore = 0 ∧
    (startFresh now sessId sockId role uid).history = [] := by
  unfold startFresh
  match role with
  | none => exact ⟨rfl, rfl, rfl, rfl⟩
  | some .attacker => exact ⟨rfl, rfl, rfl, rfl⟩
  | some .defender => exact ⟨rfl, rfl, rfl, rfl⟩

theorem handleNextRound_nodup (now : ℕ) (g : Game) (h : g.playedThemes.Nodup) :
    ((handleNextRound now g).1).playedThemes.Nodup := by
  unfold handleNextRound
  dsimp only
  split
  · rw [(completeTheme_proj now _).2.2.2.2.2.2]
    exact pushedPlayedThemes_nodup _ h
  · rw [(advanceRound_proj now _).2.2.2.2.2.2]
    exact h

theorem getD_played_nodup (s : Option Game) (sessId : String) (now : ℕ)
    (h : ∀ g, s = some g → g.playedThemes.Nodup) :
    (s.getD (createInitialState sessId now)).playedThemes.Nodup := by
  cases s with
  | none => simp [createInitialState]
  | some g => simpa using h g rfl

theorem step_played_nodup (now : ℕ) (s : Option Game) (e : Event)
    (h : ∀ g, s = some g → g.playedThemes.Nodup) :
    ∀ g', (step now s e).1 = some g' → g'.playedThemes.Nodup := by
  intro g' hg'
  cases e with
  | joinGame sockId sessId role th uid =>
    simp only [step] at hg'
    rcases joinHandler_state now s sockId sessId role th uid with h1 | h1 | ⟨r, h1⟩ <;>
      rw [h1] at hg'
    · exact h g' hg'
    · rw [Option.some.injEq] at hg'
      subst hg'
      exact getD_played_nodup s sessId now h
    · rw [Option.some.injEq] at hg'
      subst hg'
      rcases joinApplied_played_cases now _ r sockId th uid with h2 | ⟨t, _, hmem, h2⟩ <;> rw [h2]
      · exact getD_played_nodup s sessId now h
      · exact nodup_append_single (getD_played_nodup s sessId now h) hmem
  | startGame sockId sessId th role uid =>
    simp only [step] at hg'
    by_cases hs : sessId = ""
    · subst hs
      rw [startHandler_empty] at hg'
      exact h g' hg'
    · rw [startHandler_state now s sockId sessId th role uid hs, Option.some.injEq] at hg'
      subst hg'
      rw [(startApplied_played now _ sockId th role uid).1]
      cases s with
      | none =>
        rw [Option.getD_none, (startFresh_proj now sessId sockId role uid).1]
        exact List.nodup_nil
      | some g => simpa using h g rfl
  | executeAttack sockId sessId tool =>
    simp only [step] at hg'
    rcases attackHandler_state now s sockId sessId tool with h1 | ⟨g, hsg, h1⟩ <;> rw [h1] at hg'
    · exact h g' hg'
    · rw [Option.some.injEq] at hg'
      subst hg'
      simpa [attackApplied] using h g hsg
  | executeDefense sockId sessId tool c tr =>
    simp only [step] at hg'
    rcases defenseHandler_state now s sockId sessId tool c tr with h1 | ⟨g, hsg, h1⟩ <;>
      rw [h1] at hg'
    · exact h g' hg'
    · rw [Option.some.injEq] at hg'
      subst hg'
      simpa [defenseApplied] using h g hsg
  | timeExpired sessId =>
    simp only [step] at hg'
    rcases timeExpiredHandler_state now s sessId with h1 | ⟨g, hsg, _, h1⟩ <;> rw [h1] at hg'
    · exact h g' hg'
    · rw [Option.some.injEq] at hg'
      subst hg'
      simpa [timeoutApplied] using h g hsg
  | chooseNextRole sockId sessId role =>
    simp only [step] at hg'
    rcases chooseNextRoleHandler_state now s sockId sessId role with h1 | ⟨g, hsg, h1⟩ <;>
      rw [h1] at hg'
    · exact h g' hg'
    · rw [Option.some.injEq] at hg'
      subst hg'
      refine handleNextRound_nodup now _ ?_
      simpa [chooseSlots] using h g hsg
  | nextRound sessId =>
    simp only [step] at hg'
    rcases nextRoundHandler_state now s sessId with h1 | ⟨g, hsg, h1⟩ <;> rw [h1] at hg'
    · exact h g' hg'
    · rw [Option.some.injEq] at hg'
      subst hg'
      exact handleNextRound_nodup now g (h g hsg)
  | resetGame sessId =>
    simp only [step] at hg'
    rcases resetHandler_state now s sessId with h1 | h1 <;> rw [h1] at hg'
    · exact h g' hg'
    · rw [Option.some.injEq] at hg'
      subst hg'
      simp [createInitialState]
  | replayGame sessId =>
    simp only [step] at hg'
    rcases replayHandler_state now s sessId with h1 | ⟨g, hsg, h1⟩ <;> rw [h1] at hg'
    · exact h g' hg'
    · rw [Option.some.injEq] at hg'
      subst hg'
      simpa [replayApplied] using h g hsg
  | requestState sessId =>
    simp only [step] at hg'
    rw [requestStateHandler_state s sessId] at hg'
    exact h g' hg'
  | disconnect sockId sessId =>
    simp only [step] at hg'
    rcases disconnectHandler_state now s sockId sessId with h1 | ⟨g, hsg, h1⟩ <;> rw [h1] at hg'
    · exact h g' hg'
    · rw [Option.some.injEq] at hg'
      subst hg'
      have := h g hsg
      unfold disconnectApplied
      dsimp only
      split_ifs <;> simpa using this

/-- C3 (amended): `playedThemes` never contains duplicates in any
reachable state; at the third-round advance the (truthy) active theme id
is guaranteed to be present in `playedThemes` afterwards (inserted there
when absent); but the insertion can also happen earlier: a `join_game`
that carries a theme either leaves `playedThemes` unchanged or appends
the incoming theme id immediately (before any round of that theme has
resolved). -/
theorem C3_playedThemes_amended :
    (∀ s, Reachable s → ∀ g, s = some g → g.playedThemes.Nodup)
  ∧ (∀ (now : ℕ) (g : Game), 3 ≤ themeRoundCountNorm g → optTruthy g.activeThemeId = true →
      g.activeThemeId.getD "" ∈ ((handleNextRound now g).1).playedThemes)
  ∧ (∀ (now : ℕ) (g : Game) (sockId sessId : String) (role : Option Role) (th : Option Theme)
        (uid : Option String) (g' : Game),
        (step now (some g) (.joinGame sockId sessId role th uid)).1 = some g' →
        g'.playedThemes = g.playedThemes ∨
          ∃ t, th = some t ∧ t.id ∉ g.playedThemes ∧
            g'.playedThemes = g.playedThemes ++ [t.id]) := by
  refine ⟨?_, ?_, ?_⟩
  · exact reachable_elim (fun g hg => by cases hg) step_played_nodup
  · intro now g h3 htruthy
    unfold handleNextRound
    dsimp only
    rw [if_pos (show 3 ≤ themeRoundCountNorm g from h3)]
    rw [(completeTheme_proj now _).2.2.2.2.2.2]
    unfold pushedPlayedThemes
    split_ifs with hc
    · simp
    · rw [Classical.not_and_iff_or_not_not] at hc
      rcases hc with hc | hc
      · exact absurd htruthy (by simpa using hc)
      · simpa using hc
  · intro now g sockId sessId role th uid g' hstep
    simp only [step] at hstep
    rcases joinHandler_state now (some g) sockId sessId role th uid with h1 | h1 | ⟨r, h1⟩ <;>
      rw [h1] at hstep <;> rw [Option.some.injEq] at hstep <;> subst hstep
    · exact Or.inl rfl
    · exact Or.inl rfl
    · exact joinApplied_played_cases now g r sockId th uid

/-- A fixed theme with id "t1" used in concrete traces. -/
def T1c : Theme := { id := "t1", titulo := some "Tema 1", tempo := some 30 }

/-- The single-join trace behind the C3 counterexample. -/
def C3trace : List (ℕ × Event) :=
  [(0, .joinGame "sa" "s1" (some .attacker) (some T1c) (some "uidA"))]

/-- C3 (counterexample): immediately after a join that installs theme
"t1" — with an empty history, no round resolved, `themeRoundCount = 1` —
the id "t1" is already in `playedThemes`, contradicting the claim that
the insertion happens only when the theme's third round resolves. -/
theorem C3_counterexample :
    Reachable (run C3trace)
  ∧ (run C3trace).map Game.playedThemes = some ["t1"]
  ∧ (run C3trace).map Game.history = some []
  ∧ (run C3trace).map Game.themeRoundCount = some 1 :=
  ⟨⟨C3trace, rfl⟩, by decide, by decide, by decide⟩

/-- The session record produced by `C3trace`. -/
def C3g : Game :=
  { createInitialState "s1" 0 with
    attacker := { socketId := some "sa", userId := some "uidA", connected := true },
    activeThemeId := some "t1", activeTheme := some T1c,
    themeRoundCount := 1, playedThemes := ["t1"] }

/-- A state at the third theme round, used as a witness input. -/
def C3gDone : Game :=
  { createInitialState "s1" 0 with activeThemeId := some "t9", themeRoundCount := 3 }

/-- The result of the defender joining `C2g` with theme `Tw`. -/
def C3gJoin2 : Game :=
  { C2g with defender := { socketId := some "sb", userId := none, connected := true },
             activeThemeId := some "tw", activeTheme := some Tw, themeRoundCount := 1,
             playedThemes := ["tw"], status := .READY }

/-- C3 (witness): the three parts of the amended theorem instantiated at
concrete inputs. -/
theorem C3_witness :
    C3g.playedThemes.Nodup
  ∧ (some "t9" : Option String).getD "" ∈ ((handleNextRound 7 C3gDone).1).playedThemes
  ∧ (C3gJoin2.playedThemes = C2g.playedThemes ∨
      ∃ t, (some Tw : Option Theme) = some t ∧ t.id ∉ C2g.playedThemes ∧
        C3gJoin2.playedThemes = C2g.playedThemes ++ [t.id]) :=
  ⟨C3_playedThemes_amended.1 (run C3trace) ⟨C3trace, rfl⟩ C3g (by decide),
   C3_playedThemes_amended.2.1 7 C3gDone (by decide) (by decide),
   C3_playedThemes_amended.2.2 0 C2g "sb" "s1" (some .defender) (some Tw) none C3gJoin2
     (by decide)⟩

/-! ## More projection lemmas -/

theorem attackApplied_proj (now : ℕ) (g : Game) (tool : String) :
    (attackApplied now g tool).status = .ATTACKING ∧
    (attackApplied now g tool).roundNumber = g.roundNumber + 1 ∧
    (attackApplied now g tool).currentRound.attackerTool = some tool ∧
    (attackApplied now g tool).currentRound.startTime = some now ∧
    (attackApplied now g tool).attacker = g.attacker ∧
    (attackApplied now g tool).defender = g.defender ∧
    (attackApplied now g tool).history = g.history ∧
    (attackApplied now g tool).attackerScore = g.attackerScore ∧
    (attackApplied now g tool).defenderScore = g.defenderScore :=
  ⟨rfl, rfl, rfl, rfl, rfl, rfl, rfl, rfl, rfl⟩

theorem defenseApplied_proj (now : ℕ) (g : Game) (tool : String) (c : Bool) (tr : Option ℤ) :
    (defenseApplied now g tool c tr).attacker = g.attacker ∧
    (defenseApplied now g tool c tr).defender = g.defender ∧
    (defenseApplied now g tool c tr).attackerScore =
      g.attackerScore + (if c then 0 else 150) ∧
    (defenseApplied now g tool c tr).defenderScore =
      g.defenderScore + calculateScore (tr.getD 0) (effMaxTime g) c g.streak ∧
    (defenseApplied now g tool c tr).status = (if c then GameStatus.DEFENDED else .BREACHED) ∧
    (defenseApplied now g tool c tr).streak = (if c then g.streak + 1 else 0) ∧
    ∃ r, (defenseApplied now g tool c tr).history = g.history ++ [r] ∧
      r.winnerUserId = (if c then g.defender.userId else g.attacker.userId) ∧
      r.scoreGained = calculateScore (tr.getD 0) (effMaxTime g) c g.streak ∧
      r.timedOut = false ∧
      r.winner = (if c then Role.defender else Role.attacker) :=
  ⟨rfl, rfl, rfl, rfl, rfl, rfl, _, rfl, rfl, rfl, rfl, rfl⟩

theorem timeoutApplied_proj (now : ℕ) (g : Game) :
    (timeoutApplied now g).attacker = g.attacker ∧
    (timeoutApplied now g).defender = g.defender ∧
    (timeoutApplied now g).attackerScore = g.attackerScore + 200 ∧
    (timeoutApplied now g).defenderScore = g.defenderScore ∧
    (timeoutApplied now g).status = .BREACHED ∧
    (timeoutApplied now g).streak = 0 ∧
    ∃ r, (timeoutApplied now g).history = g.history ++ [r] ∧
      r.winnerUserId = g.attacker.userId ∧
      r.scoreGained = 0 ∧
      r.timedOut = true ∧
      r.winner = Role.attacker :=
  ⟨rfl, rfl, rfl, rfl, rfl, rfl, _, rfl, rfl, rfl, rfl, rfl⟩

theorem replayApplied_proj (now : ℕ) (g : Game) :
    (replayApplied now g).attacker = g.attacker ∧
    (replayApplied now g).defender = g.defender ∧
    (replayApplied now g).attackerScore = g.attackerScore ∧
    (replayApplied now g).defenderScore = g.defenderScore ∧
    (replayApplied now g).history = g.history :=
  ⟨rfl, rfl, rfl, rfl, rfl⟩

theorem disconnectApplied_proj (now : ℕ) (g : Game) (sid : String) :
    (disconnectApplied now g sid).attacker.userId = g.attacker.userId ∧
    (disconnectApplied now g sid).defender.userId = g.defender.userId ∧
    (disconnectApplied now g sid).attackerScore = g.attackerScore ∧
    (disconnectApplied now g sid).defenderScore = g.defenderScore ∧
    (disconnectApplied now g sid).history = g.history := by
  unfold disconnectApplied
  dsimp only
  split_ifs <;> exact ⟨rfl, rfl, rfl, rfl, rfl⟩

theorem chooseSlots_proj (g : Game) (sid : String) (role : Role) :
    (chooseSlots g sid role).attacker.userId = none ∧
    (chooseSlots g sid role).defender.userId = none ∧
    (chooseSlots g sid role).attacker.connected = true ∧
    (chooseSlots g sid role).defender.connected = true ∧
    (chooseSlots g sid role).attacker.socketId =
      (if role = .attacker then some sid else
        if g.attacker.socketId = some sid then g.defender.socketId else g.attacker.socketId) ∧
    (chooseSlots g sid role).defender.socketId =
      (if role = .defender then some sid else
        if g.attacker.socketId = some sid then g.defender.socketId else g.attacker.socketId) ∧
    (chooseSlots g sid role).attackerScore = g.attackerScore ∧
    (chooseSlots g sid role).defenderScore = g.defenderScore ∧
    (chooseSlots g sid role).history = g.history :=
  ⟨rfl, rfl, rfl, rfl, rfl, rfl, rfl, rfl, rfl⟩

theorem handleNextRound_slots (now : ℕ) (g : Game) :
    ((handleNextRound now g).1).attacker = g.attacker ∧
    ((handleNextRound now g).1).defender = g.defender ∧
    ((handleNextRound now g).1).attackerScore = g.attackerScore ∧
    ((handleNextRound now g).1).defenderScore = g.defenderScore ∧
    ((handleNextRound now g).1).history = g.history := by
  unfold handleNextRound
  dsimp only
  split
  · have h := completeTheme_proj now { g with themeRoundCount := themeRoundCountNorm g }
    exact ⟨h.2.2.2.2.1, h.2.2.2.2.2.1, h.2.1, h.2.2.1, h.2.2.2.1⟩
  · have h := advanceRound_proj now { g with themeRoundCount := themeRoundCountNorm g }
    exact ⟨h.2.2.2.2.1, h.2.2.2.2.2.1, h.2.1, h.2.2.1, h.2.2.2.1⟩

/-! ## Claim C5: timeout -/

/-- C5 (amended): in ATTACKING status the timeout event moves the session
to BREACHED, adds exactly 200 points to `attackerScore`, resets the
streak, and appends one RoundResult with `timedOut = true` and
`winner = attacker` — but the appended entry records `scoreGained = 0`;
the 200-point award is applied to `attackerScore` only, not stored as
the round's score. -/
theorem C5_timeout_amended (now : ℕ) (g : Game) (sessId : String) (hs : sessId ≠ "")
    (hst : g.status = .ATTACKING) :
    (step now (some g) (.timeExpired sessId)).1 = some (timeoutApplied now g)
  ∧ (timeoutApplied now g).status = .BREACHED
  ∧ (timeoutApplied now g).attackerScore = g.attackerScore + 200
  ∧ (timeoutApplied now g).defenderScore = g.defenderScore
  ∧ (timeoutApplied now g).streak = 0
  ∧ ∃ r, (timeoutApplied now g).history = g.history ++ [r] ∧ r.timedOut = true ∧
      r.winner = .attacker ∧ r.scoreGained = 0 ∧ r.winnerUserId = g.attacker.userId := by
  have h := timeoutApplied_proj now g
  refine ⟨?_, h.2.2.2.2.1, h.2.2.1, h.2.2.2.1, h.2.2.2.2.2.1, ?_⟩
  · simp only [step]
    unfold timeExpiredHandler
    rw [if_neg hs]
    dsimp only
    rw [if_neg (by simp [hst])]
  · obtain ⟨r, hr⟩ := h.2.2.2.2.2.2
    exact ⟨r, hr.1, hr.2.2.2.1, hr.2.2.2.2, hr.2.2.1, hr.2.1⟩

/-- The trace behind the C5 counterexample: join, join, attack, timeout. -/
def C5trace : List (ℕ × Event) :=
  [(0, .joinGame "sa" "s1" (some .attacker) (some T1c) (some "uidA")),
   (1, .joinGame "sb" "s1" (some .defender) none (some "uidB")),
   (2, .executeAttack "sa" "s1" "ddos"),
   (3, .timeExpired "s1")]

/-- C5 (counterexample): after a reachable timeout, the appended
RoundResult has `scoreGained = 0`, not the claimed 200-point award,
although `attackerScore` did gain 200. -/
theorem C5_counterexample :
    Reachable (run C5trace)
  ∧ (run C5trace).map (fun g => g.history.map (fun r => (r.scoreGained, r.timedOut, r.winner)))
      = some [(0, true, Role.attacker)]
  ∧ (run C5trace).map Game.attackerScore = some 200 :=
  ⟨⟨C5trace, rfl⟩, by decide, by decide⟩

/-- A concrete ATTACKING state used by witnesses. -/
def gAtt : Game :=
  { createInitialState "s1" 0 with
    status := .ATTACKING,
    attacker := { socketId := some "sa", userId := some "uidA", connected := true },
    defender := { socketId := some "sb", userId := some "uidB", connected := true } }

/-- C5 (witness): the amended theorem instantiated at `gAtt`. -/
theorem C5_witness :
    ("s1" : String) ≠ "" ∧ gAtt.status = .ATTACKING
  ∧ (step 9 (some gAtt) (.timeExpired "s1")).1 = some (timeoutApplied 9 gAtt)
  ∧ (timeoutApplied 9 gAtt).attackerScore = gAtt.attackerScore + 200 :=
  ⟨by decide, by decide,
   (C5_timeout_amended 9 gAtt "s1" (by decide) (by decide)).1,
   (C5_timeout_amended 9 gAtt "s1" (by decide) (by decide)).2.2.1⟩

/-! ## Claim C7: joining a full session -/

/-- C7 (amended): with both slots connected, a join WITHOUT an explicit
role is admitted only when the supplied stable `userId` matches one of
the slots, and is rejected with "Sala cheia" (session untouched)
otherwise; but a join WITH an explicit role is never subject to the
full-session check: it is admitted unconditionally and overwrites the
requested slot. -/
theorem C7_joinFull_amended :
    (∀ (now : ℕ) (g : Game) (sockId sessId : String) (th : Option Theme) (uid : Option String),
      sessId ≠ "" → g.attacker.connected = true → g.defender.connected = true →
      uidMatches g.attacker.userId uid = false → uidMatches g.defender.userId uid = false →
      step now (some g) (.joinGame sockId sessId none th uid) =
        (some g, [(.sender, .errorMsg "Sala cheia")]))
  ∧ (∀ (now : ℕ) (g : Game) (sockId sessId : String) (th : Option Theme) (uid : Option String),
      sessId ≠ "" → g.attacker.connected = true → g.defender.connected = true →
      uidMatches g.attacker.userId uid = true →
      (step now (some g) (.joinGame sockId sessId none th uid)).1 =
        some (joinApplied now g .attacker sockId th uid)
      ∧ (joinApplied now g .attacker sockId th uid).attacker.socketId = some sockId
      ∧ (joinApplied now g .attacker sockId th uid).defender = g.defender)
  ∧ (∀ (now : ℕ) (g : Game) (sockId sessId : String) (r : Role) (th : Option Theme)
        (uid : Option String), sessId ≠ "" →
      step now (some g) (.joinGame sockId sessId (some r) th uid) =
        (some (joinApplied now g r sockId th uid),
          [(.room, .gameState), (.room, .playerJoined)])) := by
  refine ⟨?_, ?_, ?_⟩
  · intro now g sockId sessId th uid hs hA hD hmA hmD
    have hres : resolveJoinRole g none uid = .full := by
      unfold resolveJoinRole
      simp [hA, hD, hmA, hmD]
    simp only [step]
    unfold joinHandler
    rw [if_neg hs]
    simp [hres]
  · intro now g sockId sessId th uid hs hA hD hmA
    have hres : resolveJoinRole g none uid = .assigned .attacker := by
      unfold resolveJoinRole
      simp [hA, hD, hmA]
    constructor
    · simp only [step]
      unfold joinHandler
      rw [if_neg hs]
      simp [hres]
    · constructor
      · have h1 := (applyJoinStatus_proj
          (applyJoinRound (applyJoinTheme (applyJoinAssign g .attacker sockId uid) th))).2.2.2.2.2.1
        have h2 := (applyJoinRound_proj
          (applyJoinTheme (applyJoinAssign g .attacker sockId uid) th)).2.2.2.2.2.1
        have h3 := (applyJoinTheme_proj (applyJoinAssign g .attacker sockId uid) th).1
        show (applyJoinStatus _).attacker.socketId = some sockId
        rw [h1, h2, h3]
        rfl
      · have h1 := (applyJoinStatus_proj
          (applyJoinRound (applyJoinTheme (applyJoinAssign g .attacker sockId uid) th))).2.2.2.2.2.2
        have h2 := (applyJoinRound_proj
          (applyJoinTheme (applyJoinAssign g .attacker sockId uid) th)).2.2.2.2.2.2
        have h3 := (applyJoinTheme_proj (applyJoinAssign g .attacker sockId uid) th).2.1
        show (applyJoinStatus _).defender = g.defender
        rw [h1, h2, h3]
        rfl
  · intro now g sockId sessId r th uid hs
    simp only [step]
    unfold joinHandler
    rw [if_neg hs]
    simp [resolveJoinRole]

/-- The two-join trace producing a fully connected session. -/
def C7trace : List (ℕ × Event) :=
  [(0, .joinGame "sa" "s1" (some .attacker) (some T1c) (some "uidA")),
   (1, .joinGame "sb" "s1" (some .defender) none (some "uidB"))]

/-- C7 (counterexample): the session is fully connected with distinct
stored identities, yet a third connection joining with an explicit
attacker role and a non-matching `userId` is admitted (no "Sala cheia"
rejection) and overwrites the attacker slot. -/
theorem C7_counterexample :
    Reachable (run C7trace)
  ∧ (run C7trace).map (fun g => (g.attacker.connected, g.defender.connected)) = some (true, true)
  ∧ (step 5 (run C7trace) (.joinGame "sc" "s1" (some .attacker) none (some "uidC"))).2 =
      [(.room, .gameState), (.room, .playerJoined)]
  ∧ ((step 5 (run C7trace) (.joinGame "sc" "s1" (some .attacker) none (some "uidC"))).1.map
      (fun g => g.attacker.socketId)) = some (some "sc") :=
  ⟨⟨C7trace, rfl⟩, by decide, by decide, by decide⟩

/-- A fully connected session with stored identities, for witnesses. -/
def gFull : Game :=
  { createInitialState "s1" 0 with
    attacker := { socketId := some "sa", userId := some "uidA", connected := true },
    defender := { socketId := some "sb", userId := some "uidB", connected := true } }

/-- C7 (witness): the three parts of the amended theorem instantiated at
`gFull`. -/
theorem C7_witness :
    step 4 (some gFull) (.joinGame "sc" "s1" none none (some "uidC")) =
      (some gFull, [(.sender, .errorMsg "Sala cheia")])
  ∧ (step 4 (some gFull) (.joinGame "sc" "s1" none none (some "uidA"))).1 =
      some (joinApplied 4 gFull .attacker "sc" none (some "uidA"))
  ∧ step 4 (some gFull) (.joinGame "sc" "s1" (some .defender) none (some "uidC")) =
      (some (joinApplied 4 gFull .defender "sc" none (some "uidC")),
        [(.room, .gameState), (.room, .playerJoined)]) :=
  ⟨C7_joinFull_amended.1 4 gFull "sc" "s1" none (some "uidC") (by decide) (by decide) (by decide)
      (by decide) (by decide),
   (C7_joinFull_amended.2.1 4 gFull "sc" "s1" none (some "uidA") (by decide) (by decide)
      (by decide) (by decide)).1,
   C7_joinFull_amended.2.2 4 gFull "sc" "s1" .defender none (some "uidC") (by decide)⟩

/-! ## Claim C8: the attack guard -/

/-- C8 (amended): an attack by the attacker socket is rejected (error to
the caller, no state change) when the status is THEME_COMPLETED — but
GAME_FINISHED is NOT checked: in GAME_FINISHED the attack is applied
(status ATTACKING, tool and start time recorded, round number
incremented). -/
theorem C8_attackGuard_amended :
    (∀ (now : ℕ) (g : Game) (sockId sessId tool : String), sessId ≠ "" →
      g.attacker.socketId = some sockId → g.status = .GAME_FINISHED →
      step now (some g) (.executeAttack sockId sessId tool) =
        (some (attackApplied now g tool), [(.room, .gameState), (.room, .attackExecuted)])
      ∧ (attackApplied now g tool).status = .ATTACKING
      ∧ (attackApplied now g tool).roundNumber = g.roundNumber + 1
      ∧ (attackApplied now g tool).currentRound.attackerTool = some tool
      ∧ (attackApplied now g tool).currentRound.startTime = some now)
  ∧ (∀ (now : ℕ) (g : Game) (sockId sessId tool : String), sessId ≠ "" →
      g.attacker.socketId = some sockId → g.status = .THEME_COMPLETED →
      step now (some g) (.executeAttack sockId sessId tool) =
        (some g, [(.sender, .errorMsg "O tema foi concluído. Aguarde a seleção do próximo tema.")])) := by
  constructor
  · intro now g sockId sessId tool hs hA hst
    have h := attackApplied_proj now g tool
    refine ⟨?_, h.1, h.2.1, h.2.2.1, h.2.2.2.1⟩
    simp only [step]
    unfold attackHandler
    dsimp only
    rw [if_neg hs, if_neg (by simp [hA]), if_neg (by simp [hst])]
  · intro now g sockId sessId tool hs hA hst
    simp only [step]
    unfold attackHandler
    dsimp only
    rw [if_neg hs, if_neg (by simp [hA]), if_pos hst]

/-- The trace reaching GAME_FINISHED: one defended round under theme
"t1", ten more themes installed via joins, then three `next_round`
events completing the final theme and the game. -/
def C8trace : List (ℕ × Event) :=
  [(0, .joinGame "sa" "s1" (some .attacker) (some T1c) (some "uidA")),
   (1, .joinGame "sb" "s1" (some .defender) none (some "uidB")),
   (2, .executeAttack "sa" "s1" "ddos"),
   (3, .executeDefense "sb" "s1" "firewall" true (some 10)),
   (4, .joinGame "sa" "s1" (some .attacker) (some { id := "t2", titulo := none, tempo := some 30 }) (some "uidA")),
   (5, .joinGame "sa" "s1" (some .attacker) (some { id := "t3", titulo := none, tempo := some 30 }) (some "uidA")),
   (6, .joinGame "sa" "s1" (some .attacker) (some { id := "t4", titulo := none, tempo := some 30 }) (some "uidA")),
   (7, .joinGame "sa" "s1" (some .attacker) (some { id := "t5", titulo := none, tempo := some 30 }) (some "uidA")),
   (8, .joinGame "sa" "s1" (some .attacker) (some { id := "t6", titulo := none, tempo := some 30 }) (some "uidA")),
   (9, .joinGame "sa" "s1" (some .attacker) (some { id := "t7", titulo := none, tempo := some 30 }) (some "uidA")),
   (10, .joinGame "sa" "s1" (some .attacker) (some { id := "t8", titulo := none, tempo := some 30 }) (some "uidA")),
   (11, .joinGame "sa" "s1" (some .attacker) (some { id := "t9", titulo := none, tempo := some 30 }) (some "uidA")),
   (12, .joinGame "sa" "s1" (some .attacker) (some { id := "t10", titulo := none, tempo := some 30 }) (some "uidA")),
   (13, .joinGame "sa" "s1" (some .attacker) (some { id := "t11", titulo := none, tempo := some 30 }) (some "uidA")),
   (14, .nextRound "s1"),
   (15, .nextRound "s1"),
   (16, .nextRound "s1")]

/-- C8 (counterexample): a reachable GAME_FINISHED session accepts an
attack from the attacker socket: the status moves to ATTACKING and the
round number increments, contradicting the claim that attacks are
rejected in GAME_FINISHED. -/
theorem C8_counterexample :
    Reachable (run C8trace)
  ∧ (run C8trace).map Game.status = some .GAME_FINISHED
  ∧ ((step 20 (run C8trace) (.executeAttack "sa" "s1" "x")).1.map Game.status) =
      some .ATTACKING
  ∧ ((step 20 (run C8trace) (.executeAttack "sa" "s1" "x")).1.map Game.roundNumber) = some 4 :=
  ⟨⟨C8trace, rfl⟩,
   by set_option maxRecDepth 100000 in decide,
   by set_option maxRecDepth 100000 in decide,
   by set_option maxRecDepth 100000 in decide⟩

/-- A GAME_FINISHED state for witnesses. -/
def gFin : Game := { gFull with status := .GAME_FINISHED }

/-- A THEME_COMPLETED state for witnesses. -/
def gTC : Game := { gFull with status := .THEME_COMPLETED }

/-- C8 (witness): both parts of the amended theorem instantiated. -/
theorem C8_witness :
    (step 4 (some gFin) (.executeAttack "sa" "s1" "x") =
      (some (attackApplied 4 gFin "x"), [(.room, .gameState), (.room, .attackExecuted)]))
  ∧ (attackApplied 4 gFin "x").status = .ATTACKING
  ∧ step 4 (some gTC) (.executeAttack "sa" "s1" "x") =
      (some gTC, [(.sender, .errorMsg "O tema foi concluído. Aguarde a seleção do próximo tema.")]) :=
  ⟨(C8_attackGuard_amended.1 4 gFin "sa" "s1" "x" (by decide) (by decide) (by decide)).1,
   (C8_attackGuard_amended.1 4 gFin "sa" "s1" "x" (by decide) (by decide) (by decide)).2.1,
   C8_attackGuard_amended.2 4 gTC "sa" "s1" "x" (by decide) (by decide) (by decide)⟩

/-! ## Claim C6: rejection semantics -/

/-- C6 (amended): the InvalidRole rejections (attack by a non-attacker
socket, defense by a non-defender socket, role choice by a socket other
than the previous round's winner) and the SessionFull rejection each
emit exactly one error notification to the offending connection and
leave the session record unchanged; but a `choose_next_role` with empty
history (NoPriorRound) is silently dropped: the state is unchanged and
NO error is emitted. -/
theorem C6_rejections_amended :
    (∀ (now : ℕ) (g : Game) (sockId sessId tool : String), sessId ≠ "" →
      g.attacker.socketId ≠ some sockId →
      step now (some g) (.executeAttack sockId sessId tool) =
        (some g, [(.sender, .errorMsg "Apenas o atacante pode atacar")]))
  ∧ (∀ (now : ℕ) (g : Game) (sockId sessId tool : String) (c : Bool) (tr : Option ℤ),
      sessId ≠ "" → g.status = .ATTACKING → g.defender.socketId ≠ some sockId →
      step now (some g) (.executeDefense sockId sessId tool c tr) =
        (some g, [(.sender, .errorMsg "Apenas o defensor pode defender")]))
  ∧ (∀ (now : ℕ) (g : Game) (sockId sessId : String) (th : Option Theme) (uid : Option String),
      sessId ≠ "" → g.attacker.connected = true → g.defender.connected = true →
      uidMatches g.attacker.userId uid = false → uidMatches g.defender.userId uid = false →
      step now (some g) (.joinGame sockId sessId none th uid) =
        (some g, [(.sender, .errorMsg "Sala cheia")]))
  ∧ (∀ (now : ℕ) (g : Game) (sockId sessId : String) (role : Role) (lr : RoundResult),
      sessId ≠ "" → g.history.getLast? = some lr → callerRoleOf g sockId ≠ some lr.winner →
      step now (some g) (.chooseNextRole sockId sessId role) =
        (some g, [(.sender, .errorMsg "Apenas o vencedor da ronda anterior pode escolher o papel")]))
  ∧ (∀ (now : ℕ) (g : Game) (sockId sessId : String) (role : Role),
      sessId ≠ "" → g.history = [] →
      step now (some g) (.chooseNextRole sockId sessId role) = (some g, [])) := by
  refine ⟨?_, ?_, ?_, ?_, ?_⟩
  · intro now g sockId sessId tool hs hA
    simp only [step]
    unfold attackHandler
    dsimp only
    rw [if_neg hs, if_pos hA]
  · intro now g sockId sessId tool c tr hs hst hD
    simp only [step]
    unfold defenseHandler
    dsimp only
    rw [if_neg hs, if_neg (by simp [hst]), if_pos hD]
  · intro now g sockId sessId th uid hs hA hD hmA hmD
    have hres : resolveJoinRole g none uid = .full := by
      unfold resolveJoinRole
      simp [hA, hD, hmA, hmD]
    simp only [step]
    unfold joinHandler
    rw [if_neg hs]
    simp [hres]
  · intro now g sockId sessId role lr hs hlast hcaller
    simp only [step]
    unfold chooseNextRoleHandler
    rw [if_neg hs]
    simp only [hlast]
    rw [if_pos hcaller]
  · intro now g sockId sessId role hs hh
    simp only [step]
    unfold chooseNextRoleHandler
    rw [if_neg hs]
    simp [hh]

/-- C6 (counterexample): in a reachable session with empty history, a
`choose_next_role` request mutates nothing but also emits NOTHING — the
claimed error notification for the NoPriorRound case is never sent. -/
theorem C6_counterexample :
    Reachable (run C7trace)
  ∧ (run C7trace).map Game.history = some []
  ∧ step 5 (run C7trace) (.chooseNextRole "sa" "s1" .attacker) = (run C7trace, []) :=
  ⟨⟨C7trace, rfl⟩, by decide, by decide⟩

/-- A concrete history entry won by the attacker. -/
def rWin : RoundResult :=
  { round := 1, themeId := some "t1", themeName := none, attackerTool := some "ddos",
    defenderTool := none, isCorrect := false, responseTime := 0, scoreGained := 150,
    winner := .attacker, timedOut := false, timestamp := 2, winnerSocketId := some "sa",
    winnerUserId := some "uidA" }

/-- State `gFull` with one attacker-won round in the history. -/
def gC6hist : Game := { gFull with history := [rWin] }

/-- C6 (witness): the five parts of the amended theorem instantiated at
concrete states. -/
theorem C6_witness :
    step 4 (some gAtt) (.executeAttack "sx" "s1" "t") =
      (some gAtt, [(.sender, .errorMsg "Apenas o atacante pode atacar")])
  ∧ step 4 (some gAtt) (.executeDefense "sx" "s1" "t" true none) =
      (some gAtt, [(.sender, .errorMsg "Apenas o defensor pode defender")])
  ∧ step 4 (some gFull) (.joinGame "sx" "s1" none none none) =
      (some gFull, [(.sender, .errorMsg "Sala cheia")])
  ∧ step 4 (some gC6hist) (.chooseNextRole "sb" "s1" .attacker) =
      (some gC6hist, [(.sender, .errorMsg "Apenas o vencedor da ronda anterior pode escolher o papel")])
  ∧ step 4 (some gFull) (.chooseNextRole "sa" "s1" .attacker) = (some gFull, []) :=
  ⟨C6_rejections_amended.1 4 gAtt "sx" "s1" "t" (by decide) (by decide),
   C6_rejections_amended.2.1 4 gAtt "sx" "s1" "t" true none (by decide) (by decide) (by decide),
   C6_rejections_amended.2.2.1 4 gFull "sx" "s1" none none (by decide) (by decide) (by decide)
     (by decide) (by decide),
   C6_rejections_amended.2.2.2.1 4 gC6hist "sb" "s1" .attacker rWin (by decide) (by decide)
     (by decide),
   C6_rejections_amended.2.2.2.2 4 gFull "sa" "s1" .attacker (by decide) (by decide)⟩

/-! ## Claim C9: score monotonicity -/

theorem jsRound_nonneg (p q : ℤ) (hp : 0 ≤ p) (hq : 0 < q) : 0 ≤ jsRound p q := by
  unfold jsRound
  rw [if_pos hq]
  exact Int.ediv_nonneg (by omega) (by omega)

theorem calculateScore_nonneg (t m : ℤ) (c : Bool) (st : ℕ) (ht : 0 ≤ t) (hm : 0 < m) :
    0 ≤ calculateScore t m c st := by
  unfold calculateScore
  cases c with
  | false => simp
  | true =>
    simp only [Bool.not_true, Bool.false_eq_true, if_false]
    have h1 : 0 ≤ jsRound (t * 200) m := jsRound_nonneg _ _ (by omega) hm
    have h2 : (0 : ℤ) ≤ (st : ℤ) * 50 := by positivity
    omega

theorem getD_attackerScore (s : Option Game) (sessId : String) (now : ℕ)
    (h : ∀ g, s = some g → 0 ≤ g.attackerScore) :
    0 ≤ (s.getD (createInitialState sessId now)).attackerScore := by
  cases s with
  | none => simp [createInitialState]
  | some g => simpa using h g rfl

theorem step_attackerScore_nonneg (now : ℕ) (s : Option Game) (e : Event)
    (h : ∀ g, s = some g → 0 ≤ g.attackerScore) :
    ∀ g', (step now s e).1 = some g' → 0 ≤ g'.attackerScore := by
  intro g' hg'
  cases e with
  | joinGame sockId sessId role th uid =>
    simp only [step] at hg'
    rcases joinHandler_state now s sockId sessId role th uid with h1 | h1 | ⟨r, h1⟩ <;>
      rw [h1] at hg'
    · exact h g' hg'
    · rw [Option.some.injEq] at hg'
      subst hg'
      exact getD_attackerScore s sessId now h
    · rw [Option.some.injEq] at hg'
      subst hg'
      rw [(joinApplied_scores now _ r sockId th uid).1]
      exact getD_attackerScore s sessId now h
  | startGame sockId sessId th role uid =>
    simp only [step] at hg'
    by_cases hs : sessId = ""
    · subst hs
      rw [startHandler_empty] at hg'
      exact h g' hg'
    · rw [startHandler_state now s sockId sessId th role uid hs, Option.some.injEq] at hg'
      subst hg'
      rw [(startApplied_played now _ sockId th role uid).2.1]
      cases s with
      | none =>
        rw [Option.getD_none, (startFresh_proj now sessId sockId role uid).2.1]
      | some g => simpa using h g rfl
  | executeAttack sockId sessId tool =>
    simp only [step] at hg'
    rcases attackHandler_state now s sockId sessId tool with h1 | ⟨g, hsg, h1⟩ <;> rw [h1] at hg'
    · exact h g' hg'
    · rw [Option.some.injEq] at hg'
      subst hg'
      rw [(attackApplied_proj now g tool).2.2.2.2.2.2.2.1]
      exact h g hsg
  | executeDefense sockId sessId tool c tr =>
    simp only [step] at hg'
    rcases defenseHandler_state now s sockId sessId tool c tr with h1 | ⟨g, hsg, h1⟩ <;>
      rw [h1] at hg'
    · exact h g' hg'
    · rw [Option.some.injEq] at hg'
      subst hg'
      rw [(defenseApplied_proj now g tool c tr).2.2.1]
      have := h g hsg
      split_ifs <;> omega
  | timeExpired sessId =>
    simp only [step] at hg'
    rcases timeExpiredHandler_state now s sessId with h1 | ⟨g, hsg, _, h1⟩ <;> rw [h1] at hg'
    · exact h g' hg'
    · rw [Option.some.injEq] at hg'
      subst hg'
      rw [(timeoutApplied_proj now g).2.2.1]
      have := h g hsg
      omega
  | chooseNextRole sockId sessId role =>
    simp only [step] at hg'
    rcases chooseNextRoleHandler_state now s sockId sessId role with h1 | ⟨g, hsg, h1⟩ <;>
      rw [h1] at hg'
    · exact h g' hg'
    · rw [Option.some.injEq] at hg'
      subst hg'
      rw [(handleNextRound_slots now _).2.2.1, (chooseSlots_proj g sockId role).2.2.2.2.2.2.1]
      exact h g hsg
  | nextRound sessId =>
    simp only [step] at hg'
    rcases nextRoundHandler_state now s sessId with h1 | ⟨g, hsg, h1⟩ <;> rw [h1] at hg'
    · exact h g' hg'
    · rw [Option.some.injEq] at hg'
      subst hg'
      rw [(handleNextRound_slots now g).2.2.1]
      exact h g hsg
  | resetGame sessId =>
    simp only [step] at hg'
    rcases resetHandler_state now s sessId with h1 | h1 <;> rw [h1] at hg'
    · exact h g' hg'
    · rw [Option.some.injEq] at hg'
      subst hg'
      simp [createInitialState]
  | replayGame sessId =>
    simp only [step] at hg'
    rcases replayHandler_state now s sessId with h1 | ⟨g, hsg, h1⟩ <;> rw [h1] at hg'
    · exact h g' hg'
    · rw [Option.some.injEq] at hg'
      subst hg'
      rw [(replayApplied_proj now g).2.2.1]
      exact h g hsg
  | requestState sessId =>
    simp only [step] at hg'
    rw [requestStateHandler_state s sessId] at hg'
    exact h g' hg'
  | disconnect sockId sessId =>
    simp only [step] at hg'
    rcases disconnectHandler_state now s sockId sessId with h1 | ⟨g, hsg, h1⟩ <;> rw [h1] at hg'
    · exact h g' hg'
    · rw [Option.some.injEq] at hg'
      subst hg'
      rw [(disconnectApplied_proj now g sockId).2.2.1]
      exact h g hsg

theorem step_attackerScore_mono (now : ℕ) (g : Game) (e : Event) (g' : Game)
    (hne : ∀ sessId, e ≠ .resetGame sessId)
    (hg' : (step now (some g) e).1 = some g') : g.attackerScore ≤ g'.attackerScore := by
  cases e with
  | joinGame sockId sessId role th uid =>
    simp only [step] at hg'
    rcases joinHandler_state now (some g) sockId sessId role th uid with h1 | h1 | ⟨r, h1⟩ <;>
      rw [h1] at hg' <;> rw [Option.some.injEq] at hg' <;> subst hg'
    · exact le_refl _
    · exact le_refl _
    · rw [(joinApplied_scores now _ r sockId th uid).1]
      exact le_refl _
  | startGame sockId sessId th role uid =>
    simp only [step] at hg'
    by_cases hs : sessId = ""
    · subst hs
      rw [startHandler_empty] at hg'
      rw [Option.some.injEq] at hg'
      subst hg'
      exact le_refl _
    · rw [startHandler_state now (some g) sockId sessId th role uid hs,
        Option.some.injEq] at hg'
      subst hg'
      rw [(startApplied_played now _ sockId th role uid).2.1]
      exact le_refl _
  | executeAttack sockId sessId tool =>
    simp only [step] at hg'
    rcases attackHandler_state now (some g) sockId sessId tool with h1 | ⟨g0, hsg, h1⟩ <;>
      rw [h1] at hg' <;> rw [Option.some.injEq] at hg'
    · subst hg'; exact le_refl _
    · rw [Option.some.injEq] at hsg
      subst hsg
      subst hg'
      rw [(attackApplied_proj now g tool).2.2.2.2.2.2.2.1]
  | executeDefense sockId sessId tool c tr =>
    simp only [step] at hg'
    rcases defenseHandler_state now (some g) sockId sessId tool c tr with h1 | ⟨g0, hsg, h1⟩ <;>
      rw [h1] at hg' <;> rw [Option.some.injEq] at hg'
    · subst hg'; exact le_refl _
    · rw [Option.some.injEq] at hsg
      subst hsg
      subst hg'
      rw [(defenseApplied_proj now g tool c tr).2.2.1]
      split_ifs <;> omega
  | timeExpired sessId =>
    simp only [step] at hg'
    rcases timeExpiredHandler_state now (some g) sessId with h1 | ⟨g0, hsg, _, h1⟩ <;>
      rw [h1] at hg' <;> rw [Option.some.injEq] at hg'
    · subst hg'; exact le_refl _
    · rw [Option.some.injEq] at hsg
      subst hsg
      subst hg'
      rw [(timeoutApplied_proj now g).2.2.1]
      omega
  | chooseNextRole sockId sessId role =>
    simp only [step] at hg'
    rcases chooseNextRoleHandler_state now (some g) sockId sessId role with h1 | ⟨g0, hsg, h1⟩ <;>
      rw [h1] at hg' <;> rw [Option.some.injEq] at hg'
    · subst hg'; exact le_refl _
    · rw [Option.some.injEq] at hsg
      subst hsg
      subst hg'
      rw [(handleNextRound_slots now _).2.2.1, (chooseSlots_proj g sockId role).2.2.2.2.2.2.1]
  | nextRound sessId =>
    simp only [step] at hg'
    rcases nextRoundHandler_state now (some g) sessId with h1 | ⟨g0, hsg, h1⟩ <;>
      rw [h1] at hg' <;> rw [Option.some.injEq] at hg'
    · subst hg'; exact le_refl _
    · rw [Option.some.injEq] at hsg
      subst hsg
      subst hg'
      rw [(handleNextRound_slots now g).2.2.1]
  | resetGame sessId => exact absurd rfl (hne sessId)
  | replayGame sessId =>
    simp only [step] at hg'
    rcases replayHandler_state now (some g) sessId with h1 | ⟨g0, hsg, h1⟩ <;>
      rw [h1] at hg' <;> rw [Option.some.injEq] at hg'
    · subst hg'; exact le_refl _
    · rw [Option.some.injEq] at hsg
      subst hsg
      subst hg'
      rw [(replayApplied_proj now g).2.2.1]
  | requestState sessId =>
    simp only [step] at hg'
    rw [requestStateHandler_state (some g) sessId, Option.some.injEq] at hg'
    subst hg'
    exact le_refl _
  | disconnect sockId sessId =>
    simp only [step] at hg'
    rcases disconnectHandler_state now (some g) sockId sessId with h1 | ⟨g0, hsg, h1⟩ <;>
      rw [h1] at hg' <;> rw [Option.some.injEq] at hg'
    · subst hg'; exact le_refl _
    · rw [Option.some.injEq] at hsg
      subst hsg
      subst hg'
      rw [(disconnectApplied_proj now g sockId).2.2.1]

theorem step_defenderScore_mono (now : ℕ) (g : Game) (e : Event) (g' : Game)
    (hne : ∀ sessId, e ≠ .resetGame sessId)
    (hdef : ∀ sockId sessId tool c tr, e = .executeDefense sockId sessId tool c tr →
      0 ≤ tr.getD 0 ∧ 0 < effMaxTime g)
    (hg' : (step now (some g) e).1 = some g') : g.defenderScore ≤ g'.defenderScore := by
  cases e with
  | joinGame sockId sessId role th uid =>
    simp only [step] at hg'
    rcases joinHandler_state now (some g) sockId sessId role th uid with h1 | h1 | ⟨r, h1⟩ <;>
      rw [h1] at hg' <;> rw [Option.some.injEq] at hg' <;> subst hg'
    · exact le_refl _
    · exact le_refl _
    · rw [(joinApplied_scores now _ r sockId th uid).2.1]
      exact le_refl _
  | startGame sockId sessId th role uid =>
    simp only [step] at hg'
    by_cases hs : sessId = ""
    · subst hs
      rw [startHandler_empty] at hg'
      rw [Option.some.injEq] at hg'
      subst hg'
      exact le_refl _
    · rw [startHandler_state now (some g) sockId sessId th role uid hs,
        Option.some.injEq] at hg'
      subst hg'
      rw [(startApplied_played now _ sockId th role uid).2.2.1]
      exact le_refl _
  | executeAttack sockId sessId tool =>
    simp only [step] at hg'
    rcases attackHandler_state now (some g) sockId sessId tool with h1 | ⟨g0, hsg, h1⟩ <;>
      rw [h1] at hg' <;> rw [Option.some.injEq] at hg'
    · subst hg'; exact le_refl _
    · rw [Option.some.injEq] at hsg
      subst hsg
      subst hg'
      rw [(attackApplied_proj now g tool).2.2.2.2.2.2.2.2]
  | executeDefense sockId sessId tool c tr =>
    simp only [step] at hg'
    obtain ⟨htr, hmax⟩ := hdef sockId sessId tool c tr rfl
    rcases defenseHandler_state now (some g) sockId sessId tool c tr with h1 | ⟨g0, hsg, h1⟩ <;>
      rw [h1] at hg' <;> rw [Option.some.injEq] at hg'
    · subst hg'; exact le_refl _
    · rw [Option.some.injEq] at hsg
      subst hsg
      subst hg'
      rw [(defenseApplied_proj now g tool c tr).2.2.2.1]
      have := calculateScore_nonneg (tr.getD 0) (effMaxTime g) c g.streak htr hmax
      omega
  | timeExpired sessId =>
    simp only [step] at hg'
    rcases timeExpiredHandler_state now (some g) sessId with h1 | ⟨g0, hsg, _, h1⟩ <;>
      rw [h1] at hg' <;> rw [Option.some.injEq] at hg'
    · subst hg'; exact le_refl _
    · rw [Option.some.injEq] at hsg
      subst hsg
      subst hg'
      rw [(timeoutApplied_proj now g).2.2.2.1]
  | chooseNextRole sockId sessId role =>
    simp only [step] at hg'
    rcases chooseNextRoleHandler_state now (some g) sockId sessId role with h1 | ⟨g0, hsg, h1⟩ <;>
      rw [h1] at hg' <;> rw [Option.some.injEq] at hg'
    · subst hg'; exact le_refl _
    · rw [Option.some.injEq] at hsg
      subst hsg
      subst hg'
      rw [(handleNextRound_slots now _).2.2.2.1, (chooseSlots_proj g sockId role).2.2.2.2.2.2.2.1]
  | nextRound sessId =>
    simp only [step] at hg'
    rcases nextRoundHandler_state now (some g) sessId with h1 | ⟨g0, hsg, h1⟩ <;>
      rw [h1] at hg' <;> rw [Option.some.injEq] at hg'
    · subst hg'; exact le_refl _
    · rw [Option.some.injEq] at hsg
      subst hsg
      subst hg'
      rw [(handleNextRound_slots now g).2.2.2.1]
  | resetGame sessId => exact absurd rfl (hne sessId)
  | replayGame sessId =>
    simp only [step] at hg'
    rcases replayHandler_state now (some g) sessId with h1 | ⟨g0, hsg, h1⟩ <;>
      rw [h1] at hg' <;> rw [Option.some.injEq] at hg'
    · subst hg'; exact le_refl _
    · rw [Option.some.injEq] at hsg
      subst hsg
      subst hg'
      rw [(replayApplied_proj now g).2.2.2.1]
  | requestState sessId =>
    simp only [step] at hg'
    rw [requestStateHandler_state (some g) sessId, Option.some.injEq] at hg'
    subst hg'
    exact le_refl _
  | disconnect sockId sessId =>
    simp only [step] at hg'
    rcases disconnectHandler_state now (some g) sockId sessId with h1 | ⟨g0, hsg, h1⟩ <;>
      rw [h1] at hg' <;> rw [Option.some.injEq] at hg'
    · subst hg'; exact le_refl _
    · rw [Option.some.injEq] at hsg
      subst hsg
      subst hg'
      rw [(disconnectApplied_proj now g sockId).2.2.2.1]

/-- C9 (amended): `attackerScore` is non-negative in every reachable
state and non-decreasing across every event except reset;
`defenderScore` is non-decreasing across every non-reset event PROVIDED
the defend payload carries a non-negative `timeRemaining` and the
effective theme time budget is positive — with an arbitrary
client-supplied `timeRemaining`, `defenderScore` can decrease and go
negative. -/
theorem C9_scores_amended :
    (∀ s, Reachable s → ∀ g, s = some g → 0 ≤ g.attackerScore)
  ∧ (∀ (now : ℕ) (g : Game) (e : Event) (g' : Game), (∀ sessId, e ≠ .resetGame sessId) →
      (step now (some g) e).1 = some g' → g.attackerScore ≤ g'.attackerScore)
  ∧ (∀ (now : ℕ) (g : Game) (e : Event) (g' : Game), (∀ sessId, e ≠ .resetGame sessId) →
      (∀ sockId sessId tool c tr, e = .executeDefense sockId sessId tool c tr →
        0 ≤ tr.getD 0 ∧ 0 < effMaxTime g) →
      (step now (some g) e).1 = some g' → g.defenderScore ≤ g'.defenderScore) :=
  ⟨reachable_elim (fun g hg => by cases hg) step_attackerScore_nonneg,
   step_attackerScore_mono,
   step_defenderScore_mono⟩

/-- The trace behind the C9 counterexample: a correct defense with a
client-supplied `timeRemaining` of -1000 seconds. -/
def C9trace : List (ℕ × Event) :=
  [(0, .joinGame "sa" "s1" (some .attacker) (some T1c) (some "uidA")),
   (1, .joinGame "sb" "s1" (some .defender) none (some "uidB")),
   (2, .executeAttack "sa" "s1" "ddos"),
   (3, .executeDefense "sb" "s1" "firewall" true (some (-1000)))]

/-- C9 (counterexample): `defenderScore` was 0 before the defense and is
-6567 after it — it decreased and became negative on a non-reset event,
refuting non-negativity and monotonicity for arbitrary payloads. -/
theorem C9_counterexample :
    Reachable (run C9trace)
  ∧ (run (C9trace.take 3)).map Game.defenderScore = some 0
  ∧ (run C9trace).map Game.defenderScore = some (-6567) :=
  ⟨⟨C9trace, rfl⟩, by decide, by decide⟩

/-- C9 (witness): the three parts of the amended theorem instantiated at
concrete states and events. -/
theorem C9_witness :
    (0 : ℤ) ≤ C2g.attackerScore
  ∧ gAtt.attackerScore ≤ (timeoutApplied 9 gAtt).attackerScore
  ∧ gAtt.defenderScore ≤ (defenseApplied 9 gAtt "fw" true (some 5)).defenderScore :=
  ⟨C9_scores_amended.1 (run C2trace) ⟨C2trace, rfl⟩ C2g (by decide),
   C9_scores_amended.2.1 9 gAtt (.timeExpired "s1") (timeoutApplied 9 gAtt)
     (fun _ h => Event.noConfusion h) (by decide),
   C9_scores_amended.2.2 9 gAtt (.executeDefense "sb" "s1" "fw" true (some 5))
     (defenseApplied 9 gAtt "fw" true (some 5))
     (fun _ h => Event.noConfusion h)
     (fun sockId sessId tool c tr h => by cases h; exact ⟨by decide, by decide⟩)
     (by rfl)⟩

/-! ## Claim C10: choose_next_role slot rebuild -/

/-- C10: a `choose_next_role` that passes the winner check rebuilds both
slots from socket ids only: any stored `userId` is dropped (so every
subsequent round's recorded `winnerUserId` is null until a later join or
start stores one again) and both slots are marked connected regardless
of the players' actual connection state. -/
theorem C10_chooseNextRole :
    (∀ (now : ℕ) (g : Game) (sockId sessId : String) (role : Role) (lr : RoundResult),
      sessId ≠ "" → g.history.getLast? = some lr → callerRoleOf g sockId = some lr.winner →
      (step now (some g) (.chooseNextRole sockId sessId role)).1 =
        some (handleNextRound now (chooseSlots g sockId role)).1
      ∧ (chooseSlots g sockId role).attacker.userId = none
      ∧ (chooseSlots g sockId role).defender.userId = none
      ∧ (chooseSlots g sockId role).attacker.connected = true
      ∧ (chooseSlots g sockId role).defender.connected = true
      ∧ (chooseSlots g sockId role).attacker.socketId =
          (if role = .attacker then some sockId else
            if g.attacker.socketId = some sockId then g.defender.socketId
            else g.attacker.socketId)
      ∧ (chooseSlots g sockId role).defender.socketId =
          (if role = .defender then some sockId else
            if g.attacker.socketId = some sockId then g.defender.socketId
            else g.attacker.socketId)
      ∧ ((handleNextRound now (chooseSlots g sockId role)).1).attacker.userId = none
      ∧ ((handleNextRound now (chooseSlots g sockId role)).1).defender.userId = none)
  ∧ (∀ (now : ℕ) (g : Game) (e : Event) (g' : Game),
      g.attacker.userId = none → g.defender.userId = none →
      (∀ sockId sessId role th uid, e ≠ .joinGame sockId sessId role th uid) →
      (∀ sockId sessId th role uid, e ≠ .startGame sockId sessId th role uid) →
      (step now (some g) e).1 = some g' →
      g'.attacker.userId = none ∧ g'.defender.userId = none ∧
        ∀ r ∈ g'.history, r ∈ g.history ∨ r.winnerUserId = none) := by
  constructor
  · intro now g sockId sessId role lr hs hlast hcaller
    have hc := chooseSlots_proj g sockId role
    have hn := handleNextRound_slots now (chooseSlots g sockId role)
    refine ⟨?_, hc.1, hc.2.1, hc.2.2.1, hc.2.2.2.1, hc.2.2.2.2.1, hc.2.2.2.2.2.1,
      by rw [hn.1, hc.1], by rw [hn.2.1, hc.2.1]⟩
    simp only [step]
    unfold chooseNextRoleHandler
    rw [if_neg hs]
    simp only [hlast]
    rw [if_neg (by simp [hcaller])]
  · intro now g e g' hA hD hj hst hg'
    cases e with
    | joinGame sockId sessId role th uid => exact absurd rfl (hj sockId sessId role th uid)
    | startGame sockId sessId th role uid => exact absurd rfl (hst sockId sessId th role uid)
    | executeAttack sockId sessId tool =>
      simp only [step] at hg'
      rcases attackHandler_state now (some g) sockId sessId tool with h1 | ⟨g0, hsg, h1⟩ <;>
        rw [h1] at hg' <;> rw [Option.some.injEq] at hg'
      · subst hg'; exact ⟨hA, hD, fun r hr => Or.inl hr⟩
      · rw [Option.some.injEq] at hsg
        subst hsg
        subst hg'
        have h := attackApplied_proj now g tool
        exact ⟨by rw [h.2.2.2.2.1]; exact hA, by rw [h.2.2.2.2.2.1]; exact hD,
          by rw [h.2.2.2.2.2.2.1]; exact fun r hr => Or.inl hr⟩
    | executeDefense sockId sessId tool c tr =>
      simp only [step] at hg'
      rcases defenseHandler_state now (some g) sockId sessId tool c tr with h1 | ⟨g0, hsg, h1⟩ <;>
        rw [h1] at hg' <;> rw [Option.some.injEq] at hg'
      · subst hg'; exact ⟨hA, hD, fun r hr => Or.inl hr⟩
      · rw [Option.some.injEq] at hsg
        subst hsg
        subst hg'
        have h := defenseApplied_proj now g tool c tr
        obtain ⟨r0, hist, hwid, _⟩ := h.2.2.2.2.2.2
        refine ⟨by rw [h.1]; exact hA, by rw [h.2.1]; exact hD, ?_⟩
        rw [hist]
        intro r hr
        rcases List.mem_append.mp hr with hr | hr
        · exact Or.inl hr
        · rw [List.mem_singleton.mp hr]
          refine Or.inr ?_
          rw [hwid]
          split_ifs <;> assumption
    | timeExpired sessId =>
      simp only [step] at hg'
      rcases timeExpiredHandler_state now (some g) sessId with h1 | ⟨g0, hsg, _, h1⟩ <;>
        rw [h1] at hg' <;> rw [Option.some.injEq] at hg'
      · subst hg'; exact ⟨hA, hD, fun r hr => Or.inl hr⟩
      · rw [Option.some.injEq] at hsg
        subst hsg
        subst hg'
        have h := timeoutApplied_proj now g
        obtain ⟨r0, hist, hwid, _⟩ := h.2.2.2.2.2.2
        refine ⟨by rw [h.1]; exact hA, by rw [h.2.1]; exact hD, ?_⟩
        rw [hist]
        intro r hr
        rcases List.mem_append.mp hr with hr | hr
        · exact Or.inl hr
        · rw [List.mem_singleton.mp hr]
          exact Or.inr (by rw [hwid]; exact hA)
    | chooseNextRole sockId sessId role =>
      simp only [step] at hg'
      rcases chooseNextRoleHandler_state now (some g) sockId sessId role with h1 | ⟨g0, hsg, h1⟩ <;>
        rw [h1] at hg' <;> rw [Option.some.injEq] at hg'
      · subst hg'; exact ⟨hA, hD, fun r hr => Or.inl hr⟩
      · rw [Option.some.injEq] at hsg
        subst hsg
        subst hg'
        have hn := handleNextRound_slots now (chooseSlots g sockId role)
        have hc := chooseSlots_proj g sockId role
        exact ⟨by rw [hn.1, hc.1], by rw [hn.2.1, hc.2.1],
          by rw [hn.2.2.2.2, hc.2.2.2.2.2.2.2.2]; exact fun r hr => Or.inl hr⟩
    | nextRound sessId =>
      simp only [step] at hg'
      rcases nextRoundHandler_state now (some g) sessId with h1 | ⟨g0, hsg, h1⟩ <;>
        rw [h1] at hg' <;> rw [Option.some.injEq] at hg'
      · subst hg'; exact ⟨hA, hD, fun r hr => Or.inl hr⟩
      · rw [Option.some.injEq] at hsg
        subst hsg
        subst hg'
        have hn := handleNextRound_slots now g
        exact ⟨by rw [hn.1]; exact hA, by rw [hn.2.1]; exact hD,
          by rw [hn.2.2.2.2]; exact fun r hr => Or.inl hr⟩
    | resetGame sessId =>
      simp only [step] at hg'
      rcases resetHandler_state now (some g) sessId with h1 | h1 <;> rw [h1] at hg' <;>
        rw [Option.some.injEq] at hg'
      · subst hg'; exact ⟨hA, hD, fun r hr => Or.inl hr⟩
      · subst hg'
        refine ⟨rfl, rfl, ?_⟩
        intro r hr
        simp [createInitialState] at hr
    | replayGame sessId =>
      simp only [step] at hg'
      rcases replayHandler_state now (some g) sessId with h1 | ⟨g0, hsg, h1⟩ <;>
        rw [h1] at hg' <;> rw [Option.some.injEq] at hg'
      · subst hg'; exact ⟨hA, hD, fun r hr => Or.inl hr⟩
      · rw [Option.some.injEq] at hsg
        subst hsg
        subst hg'
        have h := replayApplied_proj now g
        exact ⟨by rw [h.1]; exact hA, by rw [h.2.1]; exact hD,
          by rw [h.2.2.2.2]; exact fun r hr => Or.inl hr⟩
    | requestState sessId =>
      simp only [step] at hg'
      rw [requestStateHandler_state (some g) sessId, Option.some.injEq] at hg'
      subst hg'
      exact ⟨hA, hD, fun r hr => Or.inl hr⟩
    | disconnect sockId sessId =>
      simp only [step] at hg'
      rcases disconnectHandler_state now (some g) sockId sessId with h1 | ⟨g0, hsg, h1⟩ <;>
        rw [h1] at hg' <;> rw [Option.some.injEq] at hg'
      · subst hg'; exact ⟨hA, hD, fun r hr => Or.inl hr⟩
      · rw [Option.some.injEq] at hsg
        subst hsg
        subst hg'
        have h := disconnectApplied_proj now g sockId
        exact ⟨by rw [h.1]; exact hA, by rw [h.2.1]; exact hD,
          by rw [h.2.2.2.2]; exact fun r hr => Or.inl hr⟩

/-- State `gFull` with one attacker-won round, caller "sa" being the winner. -/
def gC10 : Game := { gFull with history := [rWin] }

/-- A state whose slots carry no `userId`, in ATTACKING status. -/
def gNoUid : Game :=
  { createInitialState "s1" 0 with
    status := .ATTACKING,
    attacker := { socketId := some "sa", userId := none, connected := true },
    defender := { socketId := some "sb", userId := none, connected := true } }

/-- C10 (witness): both parts instantiated at concrete states. -/
theorem C10_witness :
    (chooseSlots gC10 "sa" Role.defender).attacker.userId = none
  ∧ (chooseSlots gC10 "sa" Role.defender).defender.userId = none
  ∧ ((handleNextRound 6 (chooseSlots gC10 "sa" Role.defender)).1).attacker.userId = none
  ∧ (timeoutApplied 7 gNoUid).attacker.userId = none
  ∧ ∀ r ∈ (timeoutApplied 7 gNoUid).history, r ∈ gNoUid.history ∨ r.winnerUserId = none :=
  ⟨(C10_chooseNextRole.1 6 gC10 "sa" "s1" .defender rWin (by decide) (by decide) (by decide)).2.1,
   (C10_chooseNextRole.1 6 gC10 "sa" "s1" .defender rWin (by decide) (by decide)
     (by decide)).2.2.1,
   (C10_chooseNextRole.1 6 gC10 "sa" "s1" .defender rWin (by decide) (by decide)
     (by decide)).2.2.2.2.2.2.2.1,
   (C10_chooseNextRole.2 7 gNoUid (.timeExpired "s1") (timeoutApplied 7 gNoUid) (by decide)
     (by decide) (fun a b c d e h => Event.noConfusion h) (fun a b c d e h => Event.noConfusion h)
     (by rfl)).1,
   (C10_chooseNextRole.2 7 gNoUid (.timeExpired "s1") (timeoutApplied 7 gNoUid) (by decide)
     (by decide) (fun a b c d e h => Event.noConfusion h) (fun a b c d e h => Event.noConfusion h)
     (by rfl)).2.2⟩

/-! ## Claim C4: specification of the score maps -/

/-- The total `scoreGained` recorded for the rounds won by identity `u`. -/
def sumForUid (h : List RoundResult) (u : String) : ℤ :=
  ((h.filter (fun r => decide (r.winnerUserId = some u))).map RoundResult.scoreGained).sum

/-- Index of the first history entry won by identity `u` (chronological
first encounter). -/
def firstWinIdx (h : List RoundResult) (u : String) : ℕ :=
  h.findIdx (fun r => decide (r.winnerUserId = some u))

theorem bump_keys (l : List (String × ℤ)) (u : String) (x : ℤ) :
    (bump l u x).map Prod.fst =
      if u ∈ l.map Prod.fst then l.map Prod.fst else l.map Prod.fst ++ [u] := by
  induction l with
  | nil => simp [bump]
  | cons p t ih =>
    obtain ⟨k, v⟩ := p
    by_cases hk : k = u
    · subst hk
      simp [bump]
    · simp only [bump, if_neg hk, List.map_cons]
      rw [ih]
      by_cases hm : u ∈ t.map Prod.fst
      · rw [if_pos hm, if_pos (by simp [hm])]
      · rw [if_neg hm, if_neg (by simp [hm, Ne.symm hk])]
        simp

theorem bump_mem_cases (l : List (String × ℤ)) (u : String) (x : ℤ)
    (hnd : (l.map Prod.fst).Nodup) :
    ∀ p ∈ bump l u x,
      (p ∈ l ∧ p.1 ≠ u) ∨ (∃ v, (u, v) ∈ l ∧ p = (u, v + x)) ∨
        (u ∉ l.map Prod.fst ∧ p = (u, x)) := by
  induction l with
  | nil =>
    intro p hp
    simp only [bump, List.mem_singleton] at hp
    exact Or.inr (Or.inr ⟨by simp, hp⟩)
  | cons q t ih =>
    obtain ⟨k, v⟩ := q
    simp only [List.map_cons, List.nodup_cons] at hnd
    obtain ⟨hknt, hndt⟩ := hnd
    intro p hp
    by_cases hk : k = u
    · subst hk
      have hb : bump ((k, v) :: t) k x = (k, v + x) :: t := by
        simp [bump]
      rw [hb, List.mem_cons] at hp
      rcases hp with hp | hp
      · exact Or.inr (Or.inl ⟨v, List.mem_cons_self _ _, hp⟩)
      · refine Or.inl ⟨List.mem_cons_of_mem _ hp, ?_⟩
        intro hpe
        exact hknt (hpe ▸ List.mem_map_of_mem Prod.fst hp)
    · simp only [bump, if_neg hk, List.mem_cons] at hp
      rcases hp with hp | hp
      · exact Or.inl ⟨by rw [hp]; exact List.mem_cons_self _ _, by rw [hp]; exact hk⟩
      · rcases ih hndt p hp with ⟨h1, h2⟩ | ⟨v0, h1, h2⟩ | ⟨h1, h2⟩
        · exact Or.inl ⟨List.mem_cons_of_mem _ h1, h2⟩
        · exact Or.inr (Or.inl ⟨v0, List.mem_cons_of_mem _ h1, h2⟩)
        · refine Or.inr (Or.inr ⟨?_, h2⟩)
          simp only [List.map_cons, List.mem_cons]
          rintro (hc | hc)
          · exact hk hc.symm
          · exact h1 hc

theorem globalScores_append (h : List RoundResult) (r : RoundResult) :
    globalScores (h ++ [r]) =
      if optTruthy r.winnerUserId then
        bump (globalScores h) (r.winnerUserId.getD "") r.scoreGained
      else globalScores h := by
  unfold globalScores accumScores
  rw [List.foldl_append]
  simp

theorem sumForUid_append (h : List RoundResult) (r : RoundResult) (u : String) :
    sumForUid (h ++ [r]) u =
      sumForUid h u + (if r.winnerUserId = some u then r.scoreGained else 0) := by
  unfold sumForUid
  rw [List.filter_append]
  by_cases hr : r.winnerUserId = some u
  · simp [hr]
  · simp [hr]

theorem sumForUid_eq_zero (h : List RoundResult) (u : String)
    (hne : ∀ r ∈ h, r.winnerUserId ≠ some u) : sumForUid h u = 0 := by
  unfold sumForUid
  rw [List.filter_eq_nil_iff.mpr (by intro r hr; simpa using hne r hr)]
  rfl

theorem optTruthy_true_elim (o : Option String) (h : optTruthy o = true) :
    ∃ u, o = some u ∧ u ≠ "" := by
  cases o with
  | none => simp [optTruthy] at h
  | some s => exact ⟨s, rfl, by simpa [optTruthy] using h⟩

theorem optTruthy_false_elim (o : Option String) (h : optTruthy o = false) :
    o = none ∨ o = some "" := by
  cases o with
  | none => exact Or.inl rfl
  | some s => exact Or.inr (by simpa [optTruthy] using h)

theorem findIdx_all_false {α : Type} (l : List α) (p : α → Bool)
    (h : ∀ x ∈ l, p x = false) : l.findIdx p = l.length := by
  induction l with
  | nil => rfl
  | cons a t ih =>
    rw [List.findIdx_cons, h a (List.mem_cons_self a t)]
    simp only [cond_false]
    rw [ih (fun x hx => h x (List.mem_cons_of_mem a hx))]
    rfl

theorem firstWinIdx_lt (h : List RoundResult) (u : String)
    (hex : ∃ r ∈ h, r.winnerUserId = some u) : firstWinIdx h u < h.length :=
  List.findIdx_lt_length_of_exists (by simpa using hex)

theorem firstWinIdx_append_left (h : List RoundResult) (r' : RoundResult) (u : String)
    (hex : ∃ r ∈ h, r.winnerUserId = some u) :
    firstWinIdx (h ++ [r']) u = firstWinIdx h u := by
  have hlt := firstWinIdx_lt h u hex
  unfold firstWinIdx at hlt ⊢
  rw [List.findIdx_append, if_pos hlt]

theorem firstWinIdx_append_new (h : List RoundResult) (r' : RoundResult) (u : String)
    (hnone : ∀ r ∈ h, r.winnerUserId ≠ some u) (hr' : r'.winnerUserId = some u) :
    firstWinIdx (h ++ [r']) u = h.length := by
  unfold firstWinIdx
  rw [List.findIdx_append]
  have hall : h.findIdx (fun r => decide (r.winnerUserId = some u)) = h.length :=
    findIdx_all_false _ _ (fun x hx => by simpa using hnone x hx)
  rw [hall, if_neg (lt_irrefl _)]
  simp [List.findIdx_cons, hr']

/-- The structural specification of `globalScores`: every entry carries
a truthy identity appearing in the history with its exact summed
`scoreGained`; every truthy winner identity of the history has an entry;
and the keys are ordered by chronological first encounter. -/
theorem globalScores_spec (h : List RoundResult) :
    (∀ p ∈ globalScores h,
      p.1 ≠ "" ∧ (∃ r ∈ h, r.winnerUserId = some p.1) ∧ p.2 = sumForUid h p.1)
  ∧ (∀ u, u ≠ "" → (∃ r ∈ h, r.winnerUserId = some u) →
      u ∈ (globalScores h).map Prod.fst)
  ∧ ((globalScores h).map Prod.fst).Pairwise (fun a b => firstWinIdx h a < firstWinIdx h b) := by
  induction h using List.reverseRecOn with
  | nil =>
    refine ⟨?_, ?_, ?_⟩ <;> simp [globalScores, accumScores]
  | append_singleton t r ih =>
    obtain ⟨ih1, ih2, ih3⟩ := ih
    have hnd : ((globalScores t).map Prod.fst).Nodup :=
      List.Pairwise.imp (fun hab heq => absurd (heq ▸ hab) (lt_irrefl _)) ih3
    have htransmem : ∀ a ∈ (globalScores t).map Prod.fst,
        firstWinIdx (t ++ [r]) a = firstWinIdx t a := by
      intro a ha
      obtain ⟨p, hp, hpf⟩ := List.mem_map.mp ha
      exact hpf ▸ firstWinIdx_append_left t r p.1 (ih1 p hp).2.1
    rw [globalScores_append]
    by_cases htr : optTruthy r.winnerUserId
    · rw [if_pos htr]
      obtain ⟨u, hru, hune⟩ := optTruthy_true_elim _ htr
      have hgd : r.winnerUserId.getD "" = u := by rw [hru]; rfl
      rw [hgd]
      refine ⟨?_, ?_, ?_⟩
      · intro p hp
        rcases bump_mem_cases (globalScores t) u r.scoreGained hnd p hp with
          ⟨hpmem, hpne⟩ | ⟨v, hv, hpe⟩ | ⟨hnk, hpe⟩
        · obtain ⟨h1, h2, h3⟩ := ih1 p hpmem
          obtain ⟨r0, hr0m, hr0e⟩ := h2
          refine ⟨h1, ⟨r0, List.mem_append_left _ hr0m, hr0e⟩, ?_⟩
          rw [sumForUid_append, if_neg (by rw [hru]; intro hc; exact hpne (Option.some.inj hc).symm)]
          omega
        · obtain ⟨h1, h2, h3⟩ := ih1 (u, v) hv
          subst hpe
          refine ⟨hune, ⟨r, List.mem_append_right _ (List.mem_singleton_self r), hru⟩, ?_⟩
          rw [sumForUid_append, if_pos hru]
          simp only at h3 ⊢
          omega
        · subst hpe
          refine ⟨hune, ⟨r, List.mem_append_right _ (List.mem_singleton_self r), hru⟩, ?_⟩
          have hz : sumForUid t u = 0 :=
            sumForUid_eq_zero t u (fun r0 hr0 h0 => hnk (ih2 u hune ⟨r0, hr0, h0⟩))
          rw [sumForUid_append, if_pos hru, hz]
          simp
      · intro v hvne hvex
        rw [bump_keys]
        obtain ⟨r0, hr0m, hr0e⟩ := hvex
        rcases List.mem_append.mp hr0m with hm | hm
        · have hvk : v ∈ (globalScores t).map Prod.fst := ih2 v hvne ⟨r0, hm, hr0e⟩
          split_ifs <;> simp [hvk]
        · rw [List.mem_singleton.mp hm] at hr0e
          rw [hru] at hr0e
          have hvu : v = u := (Option.some.inj hr0e).symm
          subst hvu
          split_ifs with hmem
          · exact hmem
          · simp
      · rw [bump_keys]
        have hpair : ((globalScores t).map Prod.fst).Pairwise
            (fun a b => firstWinIdx (t ++ [r]) a < firstWinIdx (t ++ [r]) b) :=
          List.Pairwise.imp_of_mem
            (fun ha hb hr0 => by rw [htransmem _ ha, htransmem _ hb]; exact hr0) ih3
        split_ifs with hmem
        · exact hpair
        · rw [List.pairwise_append]
          refine ⟨hpair, List.pairwise_singleton _ _, ?_⟩
          intro a ha b hb
          rw [List.mem_singleton.mp hb]
          have h1 : firstWinIdx (t ++ [r]) a < t.length := by
            rw [htransmem a ha]
            obtain ⟨p, hp, hpf⟩ := List.mem_map.mp ha
            exact hpf ▸ firstWinIdx_lt t p.1 (ih1 p hp).2.1
          have h2 : firstWinIdx (t ++ [r]) u = t.length :=
            firstWinIdx_append_new t r u
              (fun r0 hr0 h0 => hmem (ih2 u hune ⟨r0, hr0, h0⟩)) hru
          omega
    · rw [if_neg htr]
      have hnomatch : ∀ u, u ≠ "" → r.winnerUserId ≠ some u := by
        intro u hu
        rcases optTruthy_false_elim _ (by simpa using htr) with hc | hc <;> rw [hc]
        · simp
        · simpa using Ne.symm hu
      refine ⟨?_, ?_, ?_⟩
      · intro p hp
        obtain ⟨h1, h2, h3⟩ := ih1 p hp
        obtain ⟨r0, hr0m, hr0e⟩ := h2
        refine ⟨h1, ⟨r0, List.mem_append_left _ hr0m, hr0e⟩, ?_⟩
        rw [sumForUid_append, if_neg (hnomatch p.1 h1)]
        omega
      · intro v hvne hvex
        obtain ⟨r0, hr0m, hr0e⟩ := hvex
        rcases List.mem_append.mp hr0m with hm | hm
        · exact ih2 v hvne ⟨r0, hm, hr0e⟩
        · rw [List.mem_singleton.mp hm] at hr0e
          exact absurd hr0e (hnomatch v hvne)
      · exact List.Pairwise.imp_of_mem
          (fun ha hb hr0 => by rw [htransmem _ ha, htransmem _ hb]; exact hr0) ih3

/-! ## Claim C4: specification of the best-score scan -/

theorem pickFold_stay (l : List (String × ℤ)) :
    ∀ (b : Option String) (s : ℤ), (∀ e ∈ l, e.2 ≤ s) →
      l.foldl (fun best e => if best.2 < e.2 then (some e.1, e.2) else best) (b, s) = (b, s) := by
  induction l with
  | nil => intro b s _; rfl
  | cons e t ih =>
    intro b s hle
    rw [List.foldl_cons, if_neg (not_lt.mpr (hle e (List.mem_cons_self e t)))]
    exact ih b s (fun x hx => hle x (List.mem_cons_of_mem e hx))

theorem le_maxFold (l : List (String × ℤ)) :
    ∀ s : ℤ, s ≤ l.foldl (fun m e => max m e.2) s := by
  induction l with
  | nil => intro s; exact le_refl s
  | cons e t ih =>
    intro s
    rw [List.foldl_cons]
    exact le_trans (le_max_left s e.2) (ih (max s e.2))

theorem maxFold_bound (l : List (String × ℤ)) :
    ∀ (s : ℤ), ∀ e ∈ l, e.2 ≤ l.foldl (fun m e => max m e.2) s := by
  induction l with
  | nil => intro s e he; cases he
  | cons x t ih =>
    intro s e he
    rw [List.foldl_cons]
    rcases List.mem_cons.mp he with he | he
    · subst he
      exact le_trans (le_max_right s e.2) (le_maxFold t (max s e.2))
    · exact ih (max s x.2) e he

theorem maxFold_cases (l : List (String × ℤ)) :
    ∀ s : ℤ, l.foldl (fun m e => max m e.2) s = s ∨
      ∃ e ∈ l, l.foldl (fun m e => max m e.2) s = e.2 := by
  induction l with
  | nil => intro s; exact Or.inl rfl
  | cons x t ih =>
    intro s
    rw [List.foldl_cons]
    rcases ih (max s x.2) with hc | ⟨e, he, hc⟩
    · rcases max_choice s x.2 with hm | hm
      · exact Or.inl (by rw [hc, hm])
      · exact Or.inr ⟨x, List.mem_cons_self x t, by rw [hc, hm]⟩
    · exact Or.inr ⟨e, List.mem_cons_of_mem x he, hc⟩

theorem pickFold_fst (l : List (String × ℤ)) :
    ∀ (b : Option String) (s : ℤ), s < l.foldl (fun m e => max m e.2) s →
    (l.foldl (fun best e => if best.2 < e.2 then (some e.1, e.2) else best) (b, s)).1 =
      ((l.find? (fun e => decide (e.2 = l.foldl (fun m e => max m e.2) s))).map Prod.fst) := by
  induction l with
  | nil => intro b s h; exact absurd h (lt_irrefl s)
  | cons x t ih =>
    intro b s h
    simp only [List.foldl_cons] at h ⊢
    by_cases hc : s < x.2
    · simp only [max_eq_right hc.le] at h ⊢
      rw [if_pos hc]
      by_cases hc2 : x.2 < t.foldl (fun m e => max m e.2) x.2
      · rw [List.find?_cons_of_neg _ (by simp; omega)]
        exact ih (some x.1) x.2 hc2
      · have hM : t.foldl (fun m e => max m e.2) x.2 = x.2 :=
          le_antisymm (not_lt.mp hc2) (le_maxFold t x.2)
        rw [List.find?_cons_of_pos _ (by simp [hM])]
        rw [pickFold_stay t (some x.1) x.2
          (fun e he => hM ▸ maxFold_bound t x.2 e he)]
        rfl
    · simp only [max_eq_left (not_lt.mp hc)] at h ⊢
      rw [if_neg hc]
      have hx2 : x.2 ≤ s := not_lt.mp hc
      rw [List.find?_cons_of_neg _ (by simp; omega)]
      exact ih b s h

theorem find?_pairwise {α : Type} {R : α → α → Prop} {l : List α} {p : α → Bool} {a b : α}
    (hl : l.Pairwise R) (ha : l.find? p = some a) (hb : b ∈ l) (hpb : p b = true) :
    a = b ∨ R a b := by
  induction l with
  | nil => cases hb
  | cons x t ih =>
    obtain ⟨hx, ht⟩ := List.pairwise_cons.mp hl
    by_cases hpx : p x = true
    · rw [List.find?_cons_of_pos _ hpx, Option.some.injEq] at ha
      rcases List.mem_cons.mp hb with hbe | hbt
      · exact Or.inl (by rw [← ha, hbe])
      · exact Or.inr (ha ▸ hx b hbt)
    · rw [List.find?_cons_of_neg _ hpx] at ha
      rcases List.mem_cons.mp hb with hbe | hbt
      · exact absurd (hbe ▸ hpb) hpx
      · exact ih ht ha hbt

/-- The global-winner scan specification: whenever some truthy winner
identity of the history has a summed score strictly above the -1
threshold, the scan yields an identity with the (weakly) highest sum,
and ties are broken in favour of the identity whose first win occurs
earliest in the history. -/
theorem pickBest_globalScores (h : List RoundResult)
    (hex : ∃ u, u ≠ "" ∧ (∃ r ∈ h, r.winnerUserId = some u) ∧ -1 < sumForUid h u) :
    ∃ u, (pickBest (globalScores h)).1 = some u ∧ u ≠ ""
      ∧ (∃ r ∈ h, r.winnerUserId = some u)
      ∧ (∀ v, v ≠ "" → (∃ r ∈ h, r.winnerUserId = some v) →
          sumForUid h v ≤ sumForUid h u)
      ∧ (∀ v, v ≠ "" → (∃ r ∈ h, r.winnerUserId = some v) →
          sumForUid h v = sumForUid h u → firstWinIdx h u ≤ firstWinIdx h v) := by
  obtain ⟨inv1, inv2, inv3⟩ := globalScores_spec h
  obtain ⟨u0, hu0ne, hu0ex, hu0gt⟩ := hex
  have hu0k : u0 ∈ (globalScores h).map Prod.fst := inv2 u0 hu0ne hu0ex
  obtain ⟨p0, hp0, hp0f⟩ := List.mem_map.mp hu0k
  have hp0v : p0.2 = sumForUid h u0 := by rw [← hp0f]; exact (inv1 p0 hp0).2.2
  have hMgt : (-1 : ℤ) < (globalScores h).foldl (fun m e => max m e.2) (-1) :=
    lt_of_lt_of_le (hp0v ▸ hu0gt) (maxFold_bound (globalScores h) (-1) p0 hp0)
  have hfst := pickFold_fst (globalScores h) none (-1) hMgt
  have hach : ∃ e ∈ globalScores h,
      (fun e => decide (e.2 = (globalScores h).foldl (fun m e => max m e.2) (-1))) e = true := by
    rcases maxFold_cases (globalScores h) (-1) with hc | ⟨e, he, hc⟩
    · rw [hc] at hMgt; exact absurd hMgt (lt_irrefl _)
    · exact ⟨e, he, by simp [hc]⟩
  obtain ⟨e, hfe⟩ := Option.isSome_iff_exists.mp (List.find?_isSome.mpr hach)
  have heM : e.2 = (globalScores h).foldl (fun m e => max m e.2) (-1) := by
    simpa using List.find?_some hfe
  have heL : e ∈ globalScores h := List.mem_of_find?_eq_some hfe
  obtain ⟨hene, heex, hesum⟩ := inv1 e heL
  refine ⟨e.1, by rw [pickBest, hfst, hfe]; rfl, hene, heex, ?_, ?_⟩
  · intro v hvne hvex
    obtain ⟨pv, hpv, hpvf⟩ := List.mem_map.mp (inv2 v hvne hvex)
    have hpvv : pv.2 = sumForUid h v := by rw [← hpvf]; exact (inv1 pv hpv).2.2
    calc sumForUid h v = pv.2 := hpvv.symm
      _ ≤ (globalScores h).foldl (fun m e => max m e.2) (-1) :=
          maxFold_bound (globalScores h) (-1) pv hpv
      _ = e.2 := heM.symm
      _ = sumForUid h e.1 := hesum
  · intro v hvne hvex hveq
    obtain ⟨pv, hpv, hpvf⟩ := List.mem_map.mp (inv2 v hvne hvex)
    have hpvv : pv.2 = sumForUid h v := by rw [← hpvf]; exact (inv1 pv hpv).2.2
    have hpvM : pv.2 = (globalScores h).foldl (fun m e => max m e.2) (-1) := by
      rw [hpvv, hveq, ← hesum, heM]
    have hpair : (globalScores h).Pairwise
        (fun p q => firstWinIdx h p.1 < firstWinIdx h q.1) :=
      List.Pairwise.of_map Prod.fst (fun a b hr => hr) inv3
    rcases find?_pairwise hpair hfe hpv (by simp [hpvM]) with heq | hlt
    · rw [heq, hpvf]
    · rw [← hpvf]
      exact hlt.le

/-- Function `pushedPlayedThemes` reads only `activeThemeId` and `playedThemes`. -/
theorem pushedPlayedThemes_eq (g1 g2 : Game) (h1 : g1.activeThemeId = g2.activeThemeId)
    (h2 : g1.playedThemes = g2.playedThemes) :
    pushedPlayedThemes g1 = pushedPlayedThemes g2 := by
  unfold pushedPlayedThemes
  rw [h1, h2]

/-- The game-finished branch of `completeTheme`. -/
theorem completeTheme_finished (now : ℕ) (g0 : Game)
    (h11 : TOTAL_THEMES ≤ (pushedPlayedThemes g0).length) :
    (completeTheme now g0).status = .GAME_FINISHED
  ∧ (completeTheme now g0).finalScores = globalScores g0.history
  ∧ (completeTheme now g0).globalWinnerUserId = (pickBest (globalScores g0.history)).1 := by
  have hc2 : TOTAL_THEMES ≤ (pushedPlayedThemes
      { g0 with status := GameStatus.THEME_COMPLETED,
                themeWinnerUserId := themeWinnerOf g0 }).length := by
    rw [pushedPlayedThemes_eq
      { g0 with status := GameStatus.THEME_COMPLETED, themeWinnerUserId := themeWinnerOf g0 }
      g0 rfl rfl]
    exact h11
  unfold completeTheme
  dsimp only
  rw [if_pos hc2]
  exact ⟨rfl, rfl, rfl⟩

/-- C4 (amended): when the advance logic runs with 3 (normalised) theme
rounds and the resulting `playedThemes` reaches `TOTAL_THEMES`, the
status becomes GAME_FINISHED, `finalScores` is the per-identity score
map of the whole history (each entry being that identity's exact
`scoreGained` sum), and `globalWinnerUserId` is the identity with the
(weakly) highest sum — first-encountered chronologically on ties —
PROVIDED some identity's sum exceeds the -1 scan threshold (as whenever
some recorded score is non-negative); when every per-identity sum is
≤ -1 (possible with negative client-supplied scores) or no round has a
truthy winner identity, `globalWinnerUserId` is null instead. -/
theorem C4_gameFinished (now : ℕ) (g : Game)
    (h3 : 3 ≤ themeRoundCountNorm g)
    (h11 : TOTAL_THEMES ≤ (pushedPlayedThemes g).length) :
    ((handleNextRound now g).1).status = .GAME_FINISHED
  ∧ ((handleNextRound now g).1).finalScores = globalScores g.history
  ∧ ((handleNextRound now g).1).globalWinnerUserId = (pickBest (globalScores g.history)).1
  ∧ (∀ p ∈ globalScores g.history, p.2 = sumForUid g.history p.1)
  ∧ ((∃ u, u ≠ "" ∧ (∃ r ∈ g.history, r.winnerUserId = some u) ∧
        -1 < sumForUid g.history u) →
      ∃ u, ((handleNextRound now g).1).globalWinnerUserId = some u ∧ u ≠ ""
        ∧ (∃ r ∈ g.history, r.winnerUserId = some u)
        ∧ (∀ v, v ≠ "" → (∃ r ∈ g.history, r.winnerUserId = some v) →
            sumForUid g.history v ≤ sumForUid g.history u)
        ∧ (∀ v, v ≠ "" → (∃ r ∈ g.history, r.winnerUserId = some v) →
            sumForUid g.history v = sumForUid g.history u →
            firstWinIdx g.history u ≤ firstWinIdx g.history v)) := by
  have hstate : (handleNextRound now g).1 = completeTheme now
      { g with themeRoundCount := themeRoundCountNorm g } := by
    unfold handleNextRound
    dsimp only
    rw [if_pos (show 3 ≤ themeRoundCountNorm g from h3)]
  have h11b : TOTAL_THEMES ≤
      (pushedPlayedThemes { g with themeRoundCount := themeRoundCountNorm g }).length := by
    rw [pushedPlayedThemes_eq { g with themeRoundCount := themeRoundCountNorm g } g rfl rfl]
    exact h11
  obtain ⟨hs1, hs2, hs3⟩ :=
    completeTheme_finished now { g with themeRoundCount := themeRoundCountNorm g } h11b
  refine ⟨by rw [hstate]; exact hs1, by rw [hstate]; exact hs2, by rw [hstate]; exact hs3,
    ?_, ?_⟩
  · intro p hp
    exact ((globalScores_spec g.history).1 p hp).2.2
  · intro hex
    obtain ⟨u, hwin, hune, huex, hmax, htie⟩ := pickBest_globalScores g.history hex
    refine ⟨u, ?_, hune, huex, hmax, htie⟩
    rw [hstate]
    exact hs3.trans hwin

/-- The trace behind the C4 counterexample: as `C8trace` but the single
defended round carries a client-supplied `timeRemaining` of -1000,
making the sole identity's total negative. -/
def C4trace : List (ℕ × Event) :=
  [(0, .joinGame "sa" "s1" (some .attacker) (some T1c) (some "uidA")),
   (1, .joinGame "sb" "s1" (some .defender) none (some "uidB")),
   (2, .executeAttack "sa" "s1" "ddos"),
   (3, .executeDefense "sb" "s1" "firewall" true (some (-1000))),
   (4, .joinGame "sa" "s1" (some .attacker) (some { id := "t2", titulo := none, tempo := some 30 }) (some "uidA")),
   (5, .joinGame "sa" "s1" (some .attacker) (some { id := "t3", titulo := none, tempo := some 30 }) (some "uidA")),
   (6, .joinGame "sa" "s1" (some .attacker) (some { id := "t4", titulo := none, tempo := some 30 }) (some "uidA")),
   (7, .joinGame "sa" "s1" (some .attacker) (some { id := "t5", titulo := none, tempo := some 30 }) (some "uidA")),
   (8, .joinGame "sa" "s1" (some .attacker) (some { id := "t6", titulo := none, tempo := some 30 }) (some "uidA")),
   (9, .joinGame "sa" "s1" (some .attacker) (some { id := "t7", titulo := none, tempo := some 30 }) (some "uidA")),
   (10, .joinGame "sa" "s1" (some .attacker) (some { id := "t8", titulo := none, tempo := some 30 }) (some "uidA")),
   (11, .joinGame "sa" "s1" (some .attacker) (some { id := "t9", titulo := none, tempo := some 30 }) (some "uidA")),
   (12, .joinGame "sa" "s1" (some .attacker) (some { id := "t10", titulo := none, tempo := some 30 }) (some "uidA")),
   (13, .joinGame "sa" "s1" (some .attacker) (some { id := "t11", titulo := none, tempo := some 30 }) (some "uidA")),
   (14, .nextRound "s1"),
   (15, .nextRound "s1"),
   (16, .nextRound "s1")]

/-- C4 (counterexample): a reachable GAME_FINISHED session whose history
has exactly one winner identity — "uidB", with the strictly highest
(indeed only) summed `scoreGained`, -6567 — yet `globalWinnerUserId` is
null (the -1 threshold of the scan is never beaten), contradicting the
claim that the global winner equals the identity with the strictly
highest sum.  `finalScores` does record the per-identity sum. -/
theorem C4_counterexample :
    Reachable (run C4trace)
  ∧ (run C4trace).map Game.status = some .GAME_FINISHED
  ∧ (run C4trace).map (fun g => g.history.map RoundResult.winnerUserId) = some [some "uidB"]
  ∧ (run C4trace).map (fun g => sumForUid g.history "uidB") = some (-6567)
  ∧ (run C4trace).map Game.finalScores = some [("uidB", -6567)]
  ∧ (run C4trace).map Game.globalWinnerUserId = some none :=
  ⟨⟨C4trace, rfl⟩,
   by set_option maxRecDepth 100000 in decide,
   by set_option maxRecDepth 100000 in decide,
   by set_option maxRecDepth 100000 in decide,
   by set_option maxRecDepth 100000 in decide,
   by set_option maxRecDepth 100000 in decide⟩

/-- A history entry used by the C4 witness. -/
def r4w : RoundResult :=
  { round := 1, themeId := some "a11", themeName := none, attackerTool := some "x",
    defenderTool := some "y", isCorrect := true, responseTime := 0, scoreGained := 5,
    winner := .defender, timedOut := false, timestamp := 1, winnerSocketId := some "sb",
    winnerUserId := some "uid1" }

/-- A state at the third round of the eleventh theme, for the C4 witness. -/
def g4w : Game :=
  { createInitialState "s1" 0 with
    themeRoundCount := 3,
    activeThemeId := some "a11",
    activeTheme := some { id := "a11", titulo := none, tempo := some 30 },
    playedThemes := ["a1", "a2", "a3", "a4", "a5", "a6", "a7", "a8", "a9", "a10", "a11"],
    history := [r4w] }

/-- C4 (witness): the amended theorem instantiated at `g4w`, with both
hypotheses and the positive-sum proviso discharged concretely. -/
theorem C4_witness :
    3 ≤ themeRoundCountNorm g4w
  ∧ TOTAL_THEMES ≤ (pushedPlayedThemes g4w).length
  ∧ ((handleNextRound 0 g4w).1).status = .GAME_FINISHED
  ∧ ((handleNextRound 0 g4w).1).finalScores = globalScores g4w.history
  ∧ ∃ u, ((handleNextRound 0 g4w).1).globalWinnerUserId = some u ∧ u ≠ ""
      ∧ (∃ r ∈ g4w.history, r.winnerUserId = some u)
      ∧ (∀ v, v ≠ "" → (∃ r ∈ g4w.history, r.winnerUserId = some v) →
          sumForUid g4w.history v ≤ sumForUid g4w.history u)
      ∧ (∀ v, v ≠ "" → (∃ r ∈ g4w.history, r.winnerUserId = some v) →
          sumForUid g4w.history v = sumForUid g4w.history u →
          firstWinIdx g4w.history u ≤ firstWinIdx g4w.history v) :=
  ⟨by decide, by decide,
   (C4_gameFinished 0 g4w (by decide) (by decide)).1,
   (C4_gameFinished 0 g4w (by decide) (by decide)).2.1,
   (C4_gameFinished 0 g4w (by decide) (by decide)).2.2.2.2
     ⟨"uid1", by decide, ⟨r4w, by decide, by decide⟩, by decide⟩⟩

end CyberSiege
